import Mathlib

/-!
Verification of `scripts/create_dunedaq_package.py` (daq-cmake).

This file gives a shallow embedding of the package-scaffolding script and
proves/refutes the frozen specification claims about it.  The script is a
linear sequence of filesystem operations; we model

* Python `str.replace` (all non-overlapping occurrences, scanned left to
  right) as a fuelled structural recursion over `List Char`;
* the generation run (post-clone check, feature scaffolding, the
  `--daq-module` loop with its PascalCase validation, application loops,
  unit-test scaffold) as a state-passing function over a `GenState` record
  of written files, created directories and accumulated CMakeLists call
  fragments;
* `cleanup`, `make_package_dir`, the `.gitkeep` sweep and the CMakeLists
  assembly as the corresponding pure functions.

The template files under `scripts/templates/` are not part of the sources
provided; their contents are modelled from the spec (each such definition
is marked `Modelled from the spec:`).
-/

/-! ## Characters and case conversion

Module/package names in this tool are ASCII; on ASCII characters Python's
`str.upper`/`str.lower` agree with `Char.toUpper`/`Char.toLower`. -/

/-- `s.upper()` on the underlying character list. -/
def upperL (s : List Char) : List Char := s.map Char.toUpper

/-- `s.lower()` on the underlying character list. -/
def lowerL (s : List Char) : List Char := s.map Char.toLower

/-- `s.upper()` at `String` level. -/
def upperS (s : String) : String := ⟨upperL s.data⟩

/-- `s.lower()` at `String` level. -/
def lowerS (s : String) : String := ⟨lowerL s.data⟩

/-! ## Python `str.replace`

`s.replace(pat, rep)` scans `s` left to right; at each position, if `pat`
is a (non-empty) prefix of the remaining text it emits `rep` and skips
`pat.length` characters, otherwise it emits the current character and
moves one character forward.  The fuel argument makes the recursion
structural; `fuel = s.length` is always enough because every step consumes
at least one character.  (The script only ever calls `replace` with
non-empty literal patterns, so the empty-pattern corner of Python's
semantics is irrelevant here and the fuelled function simply never takes
the match branch for an empty pattern.) -/

/-- Fuelled core of Python `str.replace`. -/
def strReplaceFuel (pat rep : List Char) : Nat → List Char → List Char
  | fuel + 1, c :: rest =>
    if !pat.isEmpty && pat.isPrefixOf (c :: rest) then
      rep ++ strReplaceFuel pat rep fuel (rest.drop (pat.length - 1))
    else
      c :: strReplaceFuel pat rep fuel rest
  | _, s => s

/-- Python `s.replace(pat, rep)` on character lists. -/
def strReplaceL (pat rep s : List Char) : List Char :=
  strReplaceFuel pat rep s.length s

/-- Python `s.replace(pat, rep)` at `String` level. -/
def strReplace (pat rep s : String) : String :=
  ⟨strReplaceL pat.data rep.data s.data⟩

/-- `pat` occurs somewhere in `s` (executable substring test, the semantics
of Python's `pat in s` and of `re.search` for a metacharacter-free
pattern). -/
def containsTok (pat : List Char) : List Char → Bool
  | [] => pat.isEmpty
  | c :: rest => pat.isPrefixOf (c :: rest) || containsTok pat rest

/-- `containsTok` at `String` level. -/
def containsTokS (pat s : String) : Bool := containsTok pat.data s.data

/-! ## Module-name validation (source line 157)

The script accepts a module name iff `re.search(r"^[A-Z][^_]+", module)`
finds a match.  `^` anchors at the start of the string, `[A-Z]` matches a
single ASCII capital, and `[^_]+` needs at least one following character
that is not an underscore; whether the greedy `[^_]+` swallows more
characters is irrelevant to whether a match exists.  Hence a match exists
iff the string has at least two characters, starts with `A`–`Z` and its
second character is not `_`. -/

/-- The outcome of `re.search(r"^[A-Z][^_]+", module) is not None`. -/
def re_search_pascal (module : String) : Bool :=
  match module.data with
  | c :: d :: _ => (decide ('A' ≤ c) && decide (c ≤ 'Z')) && !(d == '_')
  | _ => false

/-- The simplified PascalCase rule as the spec words it: the name starts
with an uppercase letter followed by a (non-empty) run of characters
containing no underscore. -/
def SimplifiedPascalCase (s : String) : Prop :=
  ∃ c run rest, s.data = c :: (run ++ rest) ∧ 'A' ≤ c ∧ c ≤ 'Z' ∧
    run ≠ [] ∧ ∀ x ∈ run, x ≠ '_'

/-- Claim C5: the module-name validation accepts a name iff it satisfies
the simplified PascalCase rule (an uppercase ASCII letter followed by a
non-empty underscore-free run). -/
theorem c5_pascal_rule (s : String) :
    re_search_pascal s = true ↔ SimplifiedPascalCase s := by
  unfold re_search_pascal SimplifiedPascalCase
  constructor
  · intro h
    match hs : s.data with
    | [] => rw [hs] at h; simp at h
    | [c] => rw [hs] at h; simp at h
    | c :: d :: rest =>
      rw [hs] at h
      simp only [Bool.and_eq_true, decide_eq_true_eq, Bool.not_eq_true',
        beq_eq_false_iff_ne] at h
      exact ⟨c, [d], rest, by simp [hs], h.1.1, h.1.2, by simp,
        by intro x hx; simp at hx; subst hx; exact h.2⟩
  · rintro ⟨c, run, rest, hs, h1, h2, hne, hrun⟩
    cases run with
    | nil => exact absurd rfl hne
    | cons d run' =>
      rw [hs]
      simp only [List.cons_append, Bool.and_eq_true, decide_eq_true_eq,
        Bool.not_eq_true', beq_eq_false_iff_ne]
      exact ⟨⟨h1, h2⟩, hrun d (by simp)⟩

/-! ## Lemmas about `strReplaceL` and `containsTok` -/

/-- Fuel irrelevance: any fuel at least `s.length` computes `strReplaceL`. -/
theorem strReplaceFuel_eq (pat rep : List Char) :
    ∀ fuel s, s.length ≤ fuel → strReplaceFuel pat rep fuel s = strReplaceL pat rep s := by
  intro fuel
  induction fuel using Nat.strong_induction_on with
  | _ fuel ih =>
    intro s hs
    cases s with
    | nil => cases fuel <;> rfl
    | cons c rest =>
      cases fuel with
      | zero => simp at hs
      | succ f =>
        simp only [List.length_cons] at hs
        have hr : rest.length ≤ f := by omega
        have hdrop : (rest.drop (pat.length - 1)).length ≤ rest.length := by
          rw [List.length_drop]; omega
        have lhs_eq : strReplaceFuel pat rep (f + 1) (c :: rest) =
            if !pat.isEmpty && pat.isPrefixOf (c :: rest) then
              rep ++ strReplaceFuel pat rep f (rest.drop (pat.length - 1))
            else c :: strReplaceFuel pat rep f rest := rfl
        have rhs_eq : strReplaceL pat rep (c :: rest) =
            if !pat.isEmpty && pat.isPrefixOf (c :: rest) then
              rep ++ strReplaceFuel pat rep rest.length (rest.drop (pat.length - 1))
            else c :: strReplaceFuel pat rep rest.length rest := rfl
        rw [lhs_eq, rhs_eq]
        by_cases hc : (!pat.isEmpty && pat.isPrefixOf (c :: rest)) = true
        · rw [if_pos hc, if_pos hc, ih f (Nat.lt_succ_self f) _ (le_trans hdrop hr),
            ih rest.length (by omega) _ hdrop]
        · rw [if_neg hc, if_neg hc, ih f (Nat.lt_succ_self f) rest hr,
            ih rest.length (by omega) rest (le_refl _)]

theorem strReplaceL_nil (pat rep : List Char) : strReplaceL pat rep [] = [] := rfl

/-- One scanning step of `strReplaceL`. -/
theorem strReplaceL_cons (pat rep : List Char) (c : Char) (rest : List Char) :
    strReplaceL pat rep (c :: rest) =
      if !pat.isEmpty && pat.isPrefixOf (c :: rest) then
        rep ++ strReplaceL pat rep (rest.drop (pat.length - 1))
      else c :: strReplaceL pat rep rest := by
  have base : strReplaceL pat rep (c :: rest) =
      if !pat.isEmpty && pat.isPrefixOf (c :: rest) then
        rep ++ strReplaceFuel pat rep rest.length (rest.drop (pat.length - 1))
      else c :: strReplaceFuel pat rep rest.length rest := rfl
  rw [base, strReplaceFuel_eq pat rep rest.length _ (by rw [List.length_drop]; omega),
    strReplaceFuel_eq pat rep rest.length rest (le_refl _)]

/-- The empty pattern occurs in every string. -/
theorem containsTok_nil_pat : ∀ b, containsTok [] b = true := by
  intro b; cases b <;> simp [containsTok, List.isPrefixOf]

theorem ne_nil_of_containsTok_eq_false {pat s : List Char}
    (h : containsTok pat s = false) : pat ≠ [] := by
  intro hp; subst hp; rw [containsTok_nil_pat] at h; cases h

/-- A pattern avoiding `d` is no prefix of a string starting with `d`. -/
theorem isPrefixOf_cons_of_not_mem {pat : List Char} {d : Char} (hd : d ∉ pat)
    (hpat : pat ≠ []) (b : List Char) : pat.isPrefixOf (d :: b) = false := by
  cases pat with
  | nil => exact absurd rfl hpat
  | cons p pt =>
    have hpd : (p == d) = false := by
      refine beq_eq_false_iff_ne.mpr ?_
      intro h
      exact hd (by rw [h]; exact List.mem_cons_self d pt)
    simp [List.isPrefixOf, hpd]

/-- A match of a `d`-free pattern inside `a ++ d :: b` that starts at the
beginning lies entirely inside `a`. -/
theorem isPrefixOf_append_elim (d : Char) (b : List Char) :
    ∀ pat a : List Char, d ∉ pat → pat.isPrefixOf (a ++ d :: b) = true →
      pat.isPrefixOf a = true ∧ pat.length ≤ a.length := by
  intro pat
  induction pat with
  | nil => intro a _ _; exact ⟨by cases a <;> rfl, by simp⟩
  | cons p pt ih =>
    intro a hd hpre
    cases a with
    | nil =>
      rw [List.nil_append] at hpre
      rw [isPrefixOf_cons_of_not_mem hd (by simp) b] at hpre
      cases hpre
    | cons x a' =>
      simp only [List.cons_append, List.isPrefixOf, Bool.and_eq_true] at hpre
      have hmem : d ∉ pt := fun hm => hd (List.mem_cons_of_mem _ hm)
      have := ih a' hmem hpre.2
      constructor
      · simp only [List.isPrefixOf, Bool.and_eq_true]
        exact ⟨hpre.1, this.1⟩
      · simpa using Nat.succ_le_succ this.2

/-- A prefix of `a` is a prefix of `a ++ x`. -/
theorem isPrefixOf_append_of_isPrefixOf {pat a : List Char} (x : List Char)
    (h : pat.isPrefixOf a = true) : pat.isPrefixOf (a ++ x) = true := by
  rw [List.isPrefixOf_iff_prefix] at h ⊢
  exact h.trans (List.prefix_append a x)

/-- Replacement leaves a string without any occurrence of the pattern
unchanged. -/
theorem strReplaceL_of_not_contains (pat rep : List Char) :
    ∀ s, containsTok pat s = false → strReplaceL pat rep s = s := by
  intro s
  induction s with
  | nil => intro _; rfl
  | cons c rest ih =>
    intro h
    simp only [containsTok, Bool.or_eq_false_iff] at h
    rw [strReplaceL_cons, if_neg (by simp [h.1]), ih h.2]

/-- Scanning distributes over a separator character that cannot occur in
the pattern: no match can straddle the separator. -/
theorem strReplaceL_append_sep (pat rep : List Char) (d : Char) (hd : d ∉ pat) :
    ∀ n a b, a.length ≤ n →
      strReplaceL pat rep (a ++ d :: b) =
        strReplaceL pat rep a ++ d :: strReplaceL pat rep b := by
  intro n
  induction n using Nat.strong_induction_on with
  | _ n ih =>
    intro a b ha
    cases a with
    | nil =>
      rw [List.nil_append, strReplaceL_nil, List.nil_append, strReplaceL_cons]
      by_cases hp : pat = []
      · subst hp; simp
      · rw [if_neg (by simp [isPrefixOf_cons_of_not_mem hd hp])]
    | cons c a' =>
      rw [List.cons_append]
      by_cases hc : (!pat.isEmpty && pat.isPrefixOf (c :: (a' ++ d :: b))) = true
      · have hpne : pat ≠ [] := by
          intro h; subst h; simp at hc
        have hpre : pat.isPrefixOf (c :: (a' ++ d :: b)) = true :=
          (Bool.and_eq_true _ _ ▸ hc).2
        have helim := isPrefixOf_append_elim d b pat (c :: a') hd
          (by rw [List.cons_append]; exact hpre)
        have hlen : pat.length - 1 ≤ a'.length := by
          have h1 : 0 < pat.length := List.length_pos.mpr hpne
          have h2 := helim.2
          simp only [List.length_cons] at h2
          omega
        rw [strReplaceL_cons, if_pos hc]
        rw [strReplaceL_cons pat rep c a', if_pos (by
          rw [Bool.and_eq_true]
          refine ⟨?_, helim.1⟩
          cases pat with
          | nil => exact absurd rfl hpne
          | cons _ _ => rfl)]
        rw [List.drop_append_of_le_length hlen]
        have harg : (a'.drop (pat.length - 1)).length ≤ a'.length := by
          rw [List.length_drop]; omega
        have hn : a'.length < n := by
          simp only [List.length_cons] at ha; omega
        rw [ih a'.length hn _ b harg, List.append_assoc]
      · rw [strReplaceL_cons, if_neg hc]
        have hc2 : (!pat.isEmpty && pat.isPrefixOf (c :: a')) = false := by
          by_contra hcon
          rw [Bool.not_eq_false, Bool.and_eq_true] at hcon
          refine hc ?_
          rw [Bool.and_eq_true]
          refine ⟨hcon.1, ?_⟩
          have := isPrefixOf_append_of_isPrefixOf (d :: b) hcon.2
          rwa [List.cons_append] at this
        rw [strReplaceL_cons pat rep c a', if_neg (by simp [hc2])]
        have hn : a'.length < n := by
          simp only [List.length_cons] at ha; omega
        rw [ih a'.length hn a' b (le_refl _), List.cons_append]

/-- No occurrence of a `d`-free pattern in `a` or `b` means none in
`a ++ d :: b`. -/
theorem containsTok_append_sep (pat : List Char) (d : Char) (hd : d ∉ pat) :
    ∀ a b, containsTok pat a = false → containsTok pat b = false →
      containsTok pat (a ++ d :: b) = false := by
  intro a
  induction a with
  | nil =>
    intro b _ hb
    have hpat := ne_nil_of_containsTok_eq_false hb
    rw [List.nil_append]
    simp only [containsTok, Bool.or_eq_false_iff]
    exact ⟨isPrefixOf_cons_of_not_mem hd hpat b, hb⟩
  | cons c a' ih =>
    intro b ha hb
    simp only [containsTok, Bool.or_eq_false_iff] at ha
    rw [List.cons_append]
    simp only [containsTok, Bool.or_eq_false_iff]
    refine ⟨?_, ih b ha.2 hb⟩
    by_contra hcon
    rw [Bool.not_eq_false] at hcon
    have := isPrefixOf_append_elim d b pat (c :: a') hd
      (by rw [List.cons_append]; exact hcon)
    rw [this.1] at ha
    exact absurd ha.1 (by simp)

/-- A string that textually contains the (non-empty) pattern as a segment
does contain it. -/
theorem containsTok_append_self (pat : List Char) (hpat : pat ≠ []) :
    ∀ a b, containsTok pat (a ++ (pat ++ b)) = true := by
  intro a
  induction a with
  | nil =>
    intro b
    cases pat with
    | nil => exact absurd rfl hpat
    | cons p pt =>
      rw [List.nil_append, List.cons_append]
      simp only [containsTok, Bool.or_eq_true]
      left
      rw [← List.cons_append, List.isPrefixOf_iff_prefix]
      exact List.prefix_append _ _
  | cons c a' ih =>
    intro b
    rw [List.cons_append]
    simp only [containsTok, Bool.or_eq_true]
    exact Or.inr (ih b)

/-! ## The generation state

`GenState` records, for one run of the script, the files written (path to
content, paths relative to the cloned repository directory `repodir`), the
directories created, and the seven module-level accumulator lists of
CMakeLists call fragments (source lines 122–128). -/

structure Args where
  contains_main_library : Bool
  contains_python_bindings : Bool
  daq_modules : List String
  user_apps : List String
  test_apps : List String
deriving DecidableEq

structure GenState where
  files : List (String × String)
  dirs : List String
  find_package_calls : List String
  daq_codegen_calls : List String
  daq_add_library_calls : List String
  daq_add_python_bindings_calls : List String
  daq_add_plugin_calls : List String
  daq_add_application_calls : List String
  daq_add_unit_test_calls : List String
deriving DecidableEq

/-- Writing a file: create it, or overwrite the existing entry for the
same path (a filesystem holds at most one file per path). -/
def setFile (files : List (String × String)) (path content : String) :
    List (String × String) :=
  if (files.map Prod.fst).contains path then
    files.map (fun e => if e.1 = path then (path, content) else e)
  else files ++ [(path, content)]

/-- Source lines 107–110: `os.makedirs(dirname, exist_ok=True)` followed by
creation of `dirname/.gitkeep` unless that file already exists.  (Creation
of missing parent directories is irrelevant to the claims and not
modelled.) -/
def make_package_dir (st : GenState) (dirname : String) : GenState :=
  let st1 := if st.dirs.contains dirname then st
    else { st with dirs := st.dirs ++ [dirname] }
  if (st1.files.map Prod.fst).contains (dirname ++ "/.gitkeep") then st1
  else { st1 with files := st1.files ++ [(dirname ++ "/.gitkeep", "")] }

/-! ## `cleanup` (source lines 96–105) -/

inductive CleanupResult
  | deleted
  | assertUnexpectedPath
  | assertMissingPath
deriving DecidableEq

/-- Source lines 96–105.  `path_exists` is the result of
`os.path.exists(repodir)`.  The guard is `re.search(f"/{package}", repodir)`,
i.e. a search for `"/" ++ package` anywhere in `repodir` (modelled for
metacharacter-free package names, which literal substring search matches).
The two `assert False` branches delete nothing. -/
def cleanup (package repodir : String) (path_exists : Bool) : CleanupResult :=
  if path_exists then
    if containsTokS ("/" ++ package) repodir then .deleted
    else .assertUnexpectedPath
  else .assertMissingPath

/-- The last path segment of a slash-separated path: the characters after
the final `/` (the whole path if it has no slash). -/
def lastSegmentL (p : List Char) : List Char :=
  p.foldl (fun acc c => if c = '/' then [] else acc ++ [c]) []

def lastSegment (p : String) : String := ⟨lastSegmentL p.data⟩

/-! ## Post-clone emptiness check (source line 114) -/

/-- Lexicographic comparison by code point (the string order `sorted()`
uses). -/
def leChars : List Char → List Char → Bool
  | [], _ => true
  | _ :: _, [] => false
  | a :: as, b :: bs => if a < b then true else if b < a then false else leChars as bs

def leStr (a b : String) : Bool := leChars a.data b.data

def insertSorted (x : String) : List String → List String
  | [] => [x]
  | y :: ys => if leStr x y then x :: y :: ys else y :: insertSorted x ys

/-- `sorted(...)` for a listing of names (insertion sort by the string
order; only permutation-invariance and evaluation on concrete lists are
used). -/
def sortListing (l : List String) : List String := l.foldr insertSorted []

/-- Source line 114: the run proceeds unless
`os.listdir(repodir) != [".git"] and sorted(...) != [".git", "README.md"]
and sorted(...) != [".git", "docs"]`. -/
def post_clone_ok (listing : List String) : Bool :=
  !(decide (listing ≠ [".git"]) &&
    decide (sortListing listing ≠ [".git", "README.md"]) &&
    decide (sortListing listing ≠ [".git", "docs"]))

/-! ## Template files

The `scripts/templates/` directory is not among the provided sources, so
the template contents are modelled from the spec. -/

/-- Modelled from the spec: the missing module header template
`templates/RenameMe.hpp` — it carries the include-guard tokens `PACKAGE`
and `RENAMEME`, the namespace token `package` and the class-reference
token `RenameMe`. -/
def RenameMeHpp : String :=
  "#ifndef PACKAGE_RENAMEME_HPP_\nnamespace package;\nclass RenameMe;\n#endif\n"

/-- Modelled from the spec: the missing module implementation template
`templates/RenameMe.cpp` — it references the header by the `RenameMe`
token and the namespace by the `package` token. -/
def RenameMeCpp : String :=
  "#include \"RenameMe.hpp\"\nnamespace package;\n"

/-- Modelled from the spec: the missing schema template
`templates/renameme.jsonnet` — it carries the lower-case namespace token
`package` and the lower-case schema token `renameme`. -/
def renamemeJsonnet : String :=
  "local ns = \"dunedaq.package.renameme\";\n"

/-- Modelled from the spec: the missing info-schema template
`templates/renamemeinfo.jsonnet` — lower-case tokens as in the schema
template. -/
def renamemeinfoJsonnet : String :=
  "local info_ns = \"dunedaq.package.renameme\";\n"

/-- Modelled from the spec: the missing application template
`templates/renameme.cxx` — a fixed body carrying the lower-case token
`renameme`. -/
def renamemeCxx : String :=
  "// renameme\nint main()\nreturn 0;\n"

/-- Modelled from the spec: the missing python-binding template
`templates/module.cpp`, copied verbatim (content never substituted). -/
def moduleCppTemplate : String := "void module();\n"

/-- Modelled from the spec: the missing python-binding template
`templates/renameme.cpp`, copied verbatim (content never substituted). -/
def renamemeCppTemplate : String := "void renameme();\n"

/-- Modelled from the spec: the missing unit-test template
`templates/Placeholder_test.cxx`, copied verbatim. -/
def PlaceholderTestCxx : String :=
  "#define BOOST_TEST_MODULE Placeholder_test\n"

/-! ## Module generation (source lines 144–198) -/

/-- Source lines 185–195: the five sequential literal replacements applied
to every copied module template file, in this order. -/
def substituteModule (package module text : String) : String :=
  let s1 := strReplace "RenameMe" module text
  let s2 := strReplace "PACKAGE" (upperS package) s1
  let s3 := strReplace "RENAMEME" (upperS module) s2
  let s4 := strReplace "package" (lowerS package) s3
  strReplace "renameme" (lowerS module) s4

/-- The template filenames iterated over for each module (line 169). -/
def moduleSrcFilenames : List String :=
  ["RenameMe.hpp", "RenameMe.cpp", "renameme.jsonnet", "renamemeinfo.jsonnet"]

/-- Contents of the four module template files. -/
def templateText : String → String
  | "RenameMe.hpp" => RenameMeHpp
  | "RenameMe.cpp" => RenameMeCpp
  | "renameme.jsonnet" => renamemeJsonnet
  | "renamemeinfo.jsonnet" => renamemeinfoJsonnet
  | _ => ""

/-- Source lines 171–178: destination filename.  For the four fixed
template names, `pathlib.Path(f).suffix ∈ [".hpp", ".cpp"]` is an
extension test, modelled by a suffix test on the name. -/
def moduleDest (package module src_filename : String) : String :=
  if ".hpp".data.isSuffixOf src_filename.data ||
      ".cpp".data.isSuffixOf src_filename.data then
    "plugins/" ++ strReplace "RenameMe" module src_filename
  else if ".jsonnet".data.isSuffixOf src_filename.data then
    "schema/" ++ package ++ "/" ++ strReplace "renameme" (lowerS module) src_filename
  else src_filename

/-- Source lines 180–198 for one template file: `shutil.copyfile` to the
destination, then overwrite the destination with the substituted text. -/
def writeOneModuleFile (package module : String) (st : GenState)
    (src_filename : String) : GenState :=
  let dest := moduleDest package module src_filename
  let raw := templateText src_filename
  let st1 := { st with files := setFile st.files dest raw }
  { st1 with files := setFile st1.files dest (substituteModule package module raw) }

/-- The body of the `for module in args.daq_modules` loop after the name
check (lines 165–198): append the plugin fragment, the two codegen
fragments, then copy/substitute the four template files. -/
def processModule (package : String) (st : GenState) (module : String) : GenState :=
  let st1 := { st with daq_add_plugin_calls := st.daq_add_plugin_calls ++
      ["daq_add_plugin(" ++ module ++ " duneDAQModule LINK_LIBRARIES appfwk::appfwk) # Replace appfwk library with a more specific library when appropriate"] }
  let st2 := { st1 with daq_codegen_calls := st1.daq_codegen_calls ++
      ["daq_codegen(" ++ lowerS module ++ ".jsonnet TEMPLATES Structs.hpp.j2 Nljs.hpp.j2)",
       "daq_codegen(" ++ lowerS module ++ "info.jsonnet DEP_PKGS opmonlib TEMPLATES opmonlib/InfoStructs.hpp.j2 opmonlib/InfoNljs.hpp.j2)"] }
  moduleSrcFilenames.foldl (writeOneModuleFile package module) st2

inductive AbortReason
  | repoNotEmpty
  | moduleNotPascalCase (module : String)
  | appNotSnakeCase (app : String)
deriving DecidableEq

/-- State of the run at the moment `cleanup` + `error` aborted it. -/
structure AbortInfo where
  stateAtAbort : GenState
  reason : AbortReason
deriving DecidableEq

/-- Source lines 156–198: the `for module in args.daq_modules` loop.  Each
iteration first validates the name with `re.search(r"^[A-Z][^_]+", ...)`;
a failure aborts the whole run (cleanup + `error`). -/
def moduleLoop (package : String) : List String → GenState → Except AbortInfo GenState
  | [], st => .ok st
  | module :: rest, st =>
    if re_search_pascal module then
      moduleLoop package rest (processModule package st module)
    else .error ⟨st, .moduleNotPascalCase module⟩

/-- Source lines 146–154: what the `if args.daq_modules:` block does before
entering the module loop — append the two `find_package` fragments and
create `src/`, `plugins/` and `schema/<package>/`. -/
def moduleStagePre (package : String) (st : GenState) : GenState :=
  let st1 := { st with find_package_calls := st.find_package_calls ++
      ["find_package(appfwk REQUIRED)", "find_package(opmonlib REQUIRED)"] }
  let st2 := make_package_dir st1 "src"
  let st3 := make_package_dir st2 "plugins"
  make_package_dir st3 ("schema/" ++ package)

/-- Source lines 144–198: the `if args.daq_modules:` block.  The template
existence asserts of lines 146–147 always hold in the model (templates are
constants). -/
def moduleStage (package : String) (args : Args) (st : GenState) :
    Except AbortInfo GenState :=
  if args.daq_modules.isEmpty then .ok st
  else moduleLoop package args.daq_modules (moduleStagePre package st)

/-! ## The other feature stages -/

/-- Source lines 132–135: `if args.contains_main_library:`. -/
def mainLibraryStep (args : Args) (st : GenState) : GenState :=
  if args.contains_main_library then
    let st1 := make_package_dir st "src"
    let st2 := make_package_dir st1 "include"
    { st2 with daq_add_library_calls := st2.daq_add_library_calls ++
        ["daq_add_library( LINK_LIBRARIES ) # Any source files and/or dependent libraries to link in not yet determined"] }
  else st

/-- Source lines 137–142: `if args.contains_python_bindings:`. -/
def pythonBindingsStep (args : Args) (st : GenState) : GenState :=
  if args.contains_python_bindings then
    let st1 := make_package_dir st "pybindsrc"
    let st2 := { st1 with daq_add_python_bindings_calls :=
        st1.daq_add_python_bindings_calls ++
        ["\ndaq_add_python_bindings(*.cpp LINK_LIBRARIES ${PROJECT_NAME} ) # Any additional libraries to link in beyond the main library not yet determined\n"] }
    let st3 := { st2 with files := setFile st2.files "pybindsrc/module.cpp" moduleCppTemplate }
    { st3 with files := setFile st3.files "pybindsrc/renameme.cpp" renamemeCppTemplate }
  else st

/-- The `re.search(r"[A-Z]", app)` snake_case violation test of
lines 204 and 227. -/
def re_search_upper (s : String) : Bool :=
  s.data.any (fun c => decide ('A' ≤ c) && decide (c ≤ 'Z'))

/-- Source lines 203–220: the `for user_app in args.user_apps` loop. -/
def userAppLoop : List String → GenState → Except AbortInfo GenState
  | [], st => .ok st
  | user_app :: rest, st =>
    if re_search_upper user_app then .error ⟨st, .appNotSnakeCase user_app⟩
    else
      let dest := "apps/" ++ user_app ++ ".cxx"
      let sourcecode := strReplace "renameme" user_app renamemeCxx
      let st1 := { st with files := setFile st.files dest sourcecode }
      let st2 := { st1 with daq_add_application_calls := st1.daq_add_application_calls ++
          ["daq_add_application(" ++ user_app ++ " " ++ user_app ++ ".cxx LINK_LIBRARIES ) # Any libraries to link in not yet determined"] }
      userAppLoop rest st2

/-- Source lines 200–220: the `if args.user_apps:` block. -/
def userAppsStage (args : Args) (st : GenState) : Except AbortInfo GenState :=
  if args.user_apps.isEmpty then .ok st
  else userAppLoop args.user_apps (make_package_dir st "apps")

/-- Source lines 226–243: the `for test_app in args.test_apps` loop; test
applications land in `test/apps/` and their fragment carries `TEST`. -/
def testAppLoop : List String → GenState → Except AbortInfo GenState
  | [], st => .ok st
  | test_app :: rest, st =>
    if re_search_upper test_app then .error ⟨st, .appNotSnakeCase test_app⟩
    else
      let dest := "test/apps/" ++ test_app ++ ".cxx"
      let sourcecode := strReplace "renameme" test_app renamemeCxx
      let st1 := { st with files := setFile st.files dest sourcecode }
      let st2 := { st1 with daq_add_application_calls := st1.daq_add_application_calls ++
          ["daq_add_application(" ++ test_app ++ " " ++ test_app ++ ".cxx TEST LINK_LIBRARIES ) # Any libraries to link in not yet determined"] }
      testAppLoop rest st2

/-- Source lines 223–243: the `if args.test_apps:` block. -/
def testAppsStage (args : Args) (st : GenState) : Except AbortInfo GenState :=
  if args.test_apps.isEmpty then .ok st
  else testAppLoop args.test_apps (make_package_dir st "test/apps")

/-- Source lines 245–248: the unconditional unit-test scaffold. -/
def unittestStep (st : GenState) : GenState :=
  let st1 := make_package_dir st "unittest"
  let newFiles := setFile st1.files "unittest/Placeholder_test.cxx" PlaceholderTestCxx
  let st2 := { st1 with files := newFiles }
  let st3 := { st2 with daq_add_unit_test_calls := st2.daq_add_unit_test_calls ++
      ["daq_add_unit_test(Placeholder_test LINK_LIBRARIES)  # Any libraries to link in not yet determined"] }
  { st3 with find_package_calls := st3.find_package_calls ++
      ["find_package(Boost COMPONENTS unit_test_framework REQUIRED)"] }

def initState : GenState := ⟨[], [], [], [], [], [], [], [], []⟩

/-- Stage 3 of the script (source lines 112–248): the post-clone emptiness
check followed by the feature scaffolding, in source order.  Paths are
relative to the cloned repository directory.  `listing` is the result of
`os.listdir(repodir)` right after the clone.  A `.error` result means the
script called `cleanup` (deleting the whole cloned directory) and exited
via `error(...)`; `AbortInfo.stateAtAbort` is the state at that moment,
before the deletion. -/
def runScaffold (package : String) (listing : List String) (args : Args) :
    Except AbortInfo GenState :=
  if !post_clone_ok listing then .error ⟨initState, .repoNotEmpty⟩
  else
    let st0 := mainLibraryStep args initState
    let st1 := pythonBindingsStep args st0
    match moduleStage package args st1 with
    | .error e => .error e
    | .ok st2 =>
      match userAppsStage args st2 with
      | .error e => .error e
      | .ok st3 =>
        match testAppsStage args st3 with
        | .error e => .error e
        | .ok st4 => .ok (unittestStep st4)

/-! ## CMakeLists.txt generation (source lines 274–315) -/

/-- The documentation-link comment written before the first fragment of a
section (line 277). -/
def docLink (s : String) : String :=
  "\n# See https://dune-daq-sw.readthedocs.io/en/latest/packages/daq-cmake/#" ++ s ++ "\n"

/-- The visual divider written after any non-empty section (lines 281–285). -/
def sectionDivider : String :=
  "\n\n##############################################################################\n\n"

/-- Each fragment is written as `"\n" ++ line` (line 278). -/
def sectionLinesAux (calls : List String) : String :=
  String.join (calls.map (fun l => "\n" ++ l))

/-- Source lines 274–285, as the text `print_cmakelists_section` writes:
the doc-link comment before the first fragment (when a section name is
given), each fragment on its own, and the divider when the section is
non-empty. -/
def print_cmakelists_section (list_of_calls : List String)
    (section_of_webpage : Option String) : String :=
  (match list_of_calls, section_of_webpage with
   | [], _ => ""
   | c :: rest, some s => docLink s ++ "\n" ++ c ++ sectionLinesAux rest
   | c :: rest, none => "\n" ++ c ++ sectionLinesAux rest)
  ++ (if list_of_calls.length > 0 then sectionDivider else "")

/-- The fixed preamble of the generated CMakeLists.txt (lines 289–305);
`generation_time` is the result of `get_time("as_date")`. -/
def cmakePreamble (package generation_time : String) : String :=
  "\n\n# This is a skeleton CMakeLists.txt file, auto-generated on " ++
  generation_time ++
  ". \n# The developer(s) of this package should delete this comment as well\n# as adding dependent targets, packages, etc.  which the\n# auto-generator can\x27t know about. For details on how to write a\n# package, please see\n# https://dune-daq-sw.readthedocs.io/en/latest/packages/daq-cmake/\n\ncmake_minimum_required(VERSION 3.12)\nproject(" ++
  package ++
  " VERSION 0.0.0)\n\nfind_package(daq-cmake REQUIRED)\n\ndaq_setup_environment()\n\n"

/-- Source lines 287–315: the full text written to `CMakeLists.txt` — the
preamble, the seven sections in the fixed source order, and the final
`daq_install()` line. -/
def gen_cmakelists (st : GenState) (package generation_time : String) : String :=
  cmakePreamble package generation_time
  ++ print_cmakelists_section st.find_package_calls none
  ++ print_cmakelists_section st.daq_codegen_calls (some "daq_codegen")
  ++ print_cmakelists_section st.daq_add_library_calls (some "daq_add_library")
  ++ print_cmakelists_section st.daq_add_python_bindings_calls (some "daq_add_python_bindings")
  ++ print_cmakelists_section st.daq_add_plugin_calls (some "daq_add_plugin")
  ++ print_cmakelists_section st.daq_add_application_calls (some "daq_add_application")
  ++ print_cmakelists_section st.daq_add_unit_test_calls (some "daq_add_unit_test")
  ++ "daq_install()\n\n"

/-! ## The `.gitkeep` sweep (source lines 320–323) -/

/-- The effect of the sweep on the listing of one directory: if the
listing is anything other than exactly `[".gitkeep"]`, remove the
`.gitkeep` entry if present (`os.unlink`); otherwise keep the listing. -/
def sweep_gitkeep (contents : List String) : List String :=
  if contents ≠ [".gitkeep"] then
    if contents.contains ".gitkeep" then contents.erase ".gitkeep" else contents
  else contents

/-! ## Command-line parsing (source lines 50–58)

`argparse` with `action="store_true"` for the two boolean flags and
`action="append"` for the three repeatable name flags: flags may appear in
any order and in any interleaving; each category accumulates its values in
occurrence order. -/

inductive CliArg
  | mainLibrary
  | pythonBindings
  | daqModule (name : String)
  | userApp (name : String)
  | testApp (name : String)
deriving DecidableEq

def applyCliArg (a : Args) : CliArg → Args
  | .mainLibrary => { a with contains_main_library := true }
  | .pythonBindings => { a with contains_python_bindings := true }
  | .daqModule n => { a with daq_modules := a.daq_modules ++ [n] }
  | .userApp n => { a with user_apps := a.user_apps ++ [n] }
  | .testApp n => { a with test_apps := a.test_apps ++ [n] }

def defaultArgs : Args := ⟨false, false, [], [], []⟩

/-- The argument namespace produced by `parser.parse_args()` from the given
option tokens (the `append` default `None` and the empty list are
identified: both are falsy in the `if args.daq_modules:` tests). -/
def parse_args (l : List CliArg) : Args := l.foldl applyCliArg defaultArgs

/-! ## Claim C2 — the five-step substitution contract -/

/-- The substitution sequence exactly as the claim words it: five
sequential literal replacements, applied in this exact order — (1) the
case-sensitive placeholder identifier `RenameMe` is replaced by the module
name verbatim, (2) the upper-cased package placeholder `PACKAGE` by the
package name upper-cased, (3) the upper-cased module placeholder
`RENAMEME` by the module name upper-cased, (4) the lower-case package
placeholder `package` by the package name lower-cased, (5) the lower-case
module placeholder `renameme` by the module name lower-cased; each
replacement is applied to the result of the previous one. -/
def spec_five_replacements (package module text : String) : String :=
  strReplace "renameme" (lowerS module)
    (strReplace "package" (lowerS package)
      (strReplace "RENAMEME" (upperS module)
        (strReplace "PACKAGE" (upperS package)
          (strReplace "RenameMe" module text))))

/-- Claim C2: for every template text, the content the module loop
generates equals the result of the five ordered literal replacements the
spec describes. -/
theorem c2_substitution_order (package module text : String) :
    substituteModule package module text = spec_five_replacements package module text := rfl

/-! ## Claim C3 — the cleanup guard -/

/-- Claim C3 counterexample: the claim says `cleanup` deletes only when
the last path segment equals the package name exactly, but the code only
searches for `"/" ++ package` anywhere in the path: with package `a/b`
(nothing validates the package name) the cloned path is
`<sourcedir>/a/b`, whose last segment is `b`, yet `cleanup` deletes it. -/
theorem c3_counterexample :
    cleanup "a/b" "/work/sourcecode/a/b" true = CleanupResult.deleted ∧
      lastSegment "/work/sourcecode/a/b" ≠ "a/b" := by decide

/-- Claim C3 (amended): `cleanup` deletes the directory exactly when the
path exists on disk and `"/" ++ package` occurs as a substring of the
path (the literal reading of `re.search(f"/{package}", repodir)`); in
particular a missing path always hits the `assert False` branch, and an
existing path without that substring hits the other `assert False`
branch; no branch other than `deleted` removes anything. -/
theorem c3_amended (package repodir : String) (path_exists : Bool) :
    (cleanup package repodir path_exists = CleanupResult.deleted ↔
      path_exists = true ∧ containsTokS ("/" ++ package) repodir = true) ∧
    cleanup package repodir false = CleanupResult.assertMissingPath ∧
    (cleanup package repodir true = CleanupResult.assertUnexpectedPath ↔
      containsTokS ("/" ++ package) repodir = false) := by
  unfold cleanup
  cases path_exists <;> by_cases h : containsTokS ("/" ++ package) repodir = true <;>
    simp [h]

/-! ## Claim C7 — the `.gitkeep` sweep invariant -/

/-- Claim C7: after the sweep visits a directory, a directory whose
listing was anything other than exactly the marker holds no marker, and a
directory whose listing was exactly the marker keeps it (exactly one
entry).  The `Nodup` hypothesis is the filesystem invariant that a
directory listing has no duplicate names. -/
theorem c7_sweep_invariant (contents : List String) (h : contents.Nodup) :
    (contents = [".gitkeep"] → sweep_gitkeep contents = [".gitkeep"]) ∧
    (contents ≠ [".gitkeep"] → ".gitkeep" ∉ sweep_gitkeep contents) := by
  constructor
  · intro he; subst he; rfl
  · intro hne
    unfold sweep_gitkeep
    rw [if_pos hne]
    by_cases hc : contents.contains ".gitkeep" = true
    · rw [if_pos hc]
      exact h.not_mem_erase
    · rw [if_neg hc]
      simpa using hc

theorem c7_sweep_invariant_witness :
    ([".gitkeep", "Foo.hpp"] : List String).Nodup ∧
      (([".gitkeep", "Foo.hpp"] : List String) = [".gitkeep"] →
        sweep_gitkeep [".gitkeep", "Foo.hpp"] = [".gitkeep"]) ∧
      (([".gitkeep", "Foo.hpp"] : List String) ≠ [".gitkeep"] →
        ".gitkeep" ∉ sweep_gitkeep [".gitkeep", "Foo.hpp"]) :=
  ⟨by decide, c7_sweep_invariant [".gitkeep", "Foo.hpp"] (by decide)⟩

/-! ## Claim C9 — idempotence of `make_package_dir` -/

theorem make_package_dir_dirs_contains (st : GenState) (d : String) :
    (make_package_dir st d).dirs.contains d = true := by
  unfold make_package_dir
  by_cases h1 : st.dirs.contains d = true <;>
    by_cases h2 : ((if st.dirs.contains d then st
        else { st with dirs := st.dirs ++ [d] }).files.map Prod.fst).contains
        (d ++ "/.gitkeep") = true <;>
    simp_all

theorem make_package_dir_marker_contains (st : GenState) (d : String) :
    ((make_package_dir st d).files.map Prod.fst).contains (d ++ "/.gitkeep") = true := by
  unfold make_package_dir
  by_cases h1 : st.dirs.contains d = true <;>
    by_cases h2 : ((if st.dirs.contains d then st
        else { st with dirs := st.dirs ++ [d] }).files.map Prod.fst).contains
        (d ++ "/.gitkeep") = true <;>
    simp_all

theorem make_package_dir_of_contains (st : GenState) (d : String)
    (h1 : st.dirs.contains d = true)
    (h2 : (st.files.map Prod.fst).contains (d ++ "/.gitkeep") = true) :
    make_package_dir st d = st := by
  have h1' : d ∈ st.dirs := by simpa using h1
  have h2' : (d ++ "/.gitkeep") ∈ st.files.map Prod.fst := by simpa using h2
  unfold make_package_dir
  simp [h1', h2']

theorem make_package_dir_files_of_marker (st : GenState) (d : String)
    (h2 : (st.files.map Prod.fst).contains (d ++ "/.gitkeep") = true) :
    (make_package_dir st d).files = st.files := by
  unfold make_package_dir
  by_cases h1 : st.dirs.contains d = true <;> simp_all

theorem make_package_dir_files_of_no_marker (st : GenState) (d : String)
    (h2 : (st.files.map Prod.fst).contains (d ++ "/.gitkeep") = false) :
    (make_package_dir st d).files = st.files ++ [(d ++ "/.gitkeep", "")] := by
  unfold make_package_dir
  by_cases h1 : st.dirs.contains d = true <;> simp_all

/-- Claim C9: the directory-creation step is idempotent — a second
invocation on the same path is a no-op (in particular it raises no error:
the function is total) — and afterwards the directory holds exactly one
`.gitkeep` marker.  The `Nodup` hypothesis is the filesystem invariant
that each path holds at most one file. -/
theorem c9_make_package_dir_idempotent (st : GenState) (dirname : String)
    (h : (st.files.map Prod.fst).Nodup) :
    make_package_dir (make_package_dir st dirname) dirname = make_package_dir st dirname ∧
    ((make_package_dir (make_package_dir st dirname) dirname).files.map Prod.fst).count
      (dirname ++ "/.gitkeep") = 1 := by
  have hidem : make_package_dir (make_package_dir st dirname) dirname =
      make_package_dir st dirname :=
    make_package_dir_of_contains _ _ (make_package_dir_dirs_contains st dirname)
      (make_package_dir_marker_contains st dirname)
  refine ⟨hidem, ?_⟩
  rw [hidem]
  by_cases hc : (st.files.map Prod.fst).contains (dirname ++ "/.gitkeep") = true
  · rw [make_package_dir_files_of_marker st dirname hc]
    have hmem : (dirname ++ "/.gitkeep") ∈ st.files.map Prod.fst := by simpa using hc
    have hle := List.nodup_iff_count_le_one.mp h (dirname ++ "/.gitkeep")
    have hge := List.count_pos_iff.mpr hmem
    omega
  · rw [make_package_dir_files_of_no_marker st dirname (by simpa using hc)]
    have hnm : (dirname ++ "/.gitkeep") ∉ st.files.map Prod.fst := by simpa using hc
    rw [List.map_append, List.count_append]
    rw [List.count_eq_zero.mpr hnm]
    simp

theorem c9_make_package_dir_idempotent_witness :
    ((initState.files.map Prod.fst).Nodup) ∧
    (make_package_dir (make_package_dir initState "src") "src" =
        make_package_dir initState "src" ∧
      ((make_package_dir (make_package_dir initState "src") "src").files.map
        Prod.fst).count ("src" ++ "/.gitkeep") = 1) :=
  ⟨by decide, c9_make_package_dir_idempotent initState "src" (by decide)⟩

/-! ## Claim C10 — later replacements rewrite earlier insertions -/

/-- Claim C10: the five replacements are applied to the evolving text, so a
later replacement also rewrites text introduced by an earlier one.
Concretely, the accepted module name `Mypackage` (which contains the
lower-case package placeholder `package` as a substring) is inserted
verbatim by step 1, but step 4 (`package` → package name lower-cased, here
`foo`) rewrites the inserted name to `Myfoo`, so the generated file does
not contain `Mypackage` where the template's `RenameMe` stood. -/
theorem c10_later_steps_rewrite_insertions :
    re_search_pascal "Mypackage" = true ∧
    substituteModule "foo" "Mypackage" RenameMeCpp =
      "#include \"Myfoo.hpp\"\nnamespace foo;\n" ∧
    containsTokS "Mypackage" (substituteModule "foo" "Mypackage" RenameMeCpp) = false := by
  refine ⟨by decide, by decide, by decide⟩

/-! ## Claim C4 — abort behaviour of the module loop -/

/-- The module loop aborts at the first name failing the PascalCase check:
the state at abort is exactly the initial state with every earlier (valid)
module processed, and nothing after the offending name is processed. -/
theorem moduleLoop_first_failure (package bad : String)
    (hbad : re_search_pascal bad = false) :
    ∀ good : List String, ∀ st rest, (∀ m ∈ good, re_search_pascal m = true) →
      moduleLoop package (good ++ bad :: rest) st =
        .error ⟨good.foldl (processModule package) st, .moduleNotPascalCase bad⟩ := by
  intro good
  induction good with
  | nil =>
    intro st rest _
    simp [moduleLoop, hbad]
  | cons g gs ih =>
    intro st rest hgood
    rw [List.cons_append]
    have hg : re_search_pascal g = true := hgood g (by simp)
    simp only [moduleLoop, hg, if_true, List.foldl_cons]
    exact ih _ rest (fun m hm => hgood m (by simp [hm]))

/-- Helper for stating counterexamples about aborted runs: was the outcome
a cleanup-plus-exit abort? -/
def isAbort : Except AbortInfo GenState → Bool
  | .error _ => true
  | .ok _ => false

/-- Helper for stating counterexamples about aborted runs: the paths of
the files that had already been written when the run aborted (they are
deleted again by the cleanup, but the claim is about whether the abort
happened *before* any module file was written). -/
def abortFiles : Except AbortInfo GenState → List String
  | .error i => i.stateAtAbort.files.map Prod.fst
  | .ok st => st.files.map Prod.fst

/-- Claim C4 counterexample: with requested modules `["Aa", "b_b"]` (the
second violates PascalCase) the run does abort, but only after the first
module's files — e.g. `plugins/Aa.hpp` — were already written, so the
abort does not happen "before any module files are written". -/
theorem c4_counterexample :
    isAbort (runScaffold "pkg" [".git"] ⟨false, false, ["Aa", "b_b"], [], []⟩) = true ∧
    (abortFiles (runScaffold "pkg" [".git"] ⟨false, false, ["Aa", "b_b"], [], []⟩)).contains
      "plugins/Aa.hpp" = true := by
  refine ⟨by decide, by decide⟩

/-- Claim C4 (amended): when the requested module list splits as
`good ++ bad :: rest` with every name in `good` accepted and `bad`
rejected by the PascalCase check, the run aborts (cleanup + fatal exit) at
`bad`: the state at abort is exactly the pre-loop state with the `good`
prefix processed — so no file of `bad` or of any later module is written
and no later feature (user apps, test apps, unit-test scaffold) is
processed — but the modules before the offending name have already been
written at that point. -/
theorem c4_abort_at_first_invalid (package : String) (listing : List String)
    (args : Args) (good rest : List String) (bad : String)
    (hpost : post_clone_ok listing = true)
    (hsplit : args.daq_modules = good ++ bad :: rest)
    (hgood : ∀ m ∈ good, re_search_pascal m = true)
    (hbad : re_search_pascal bad = false) :
    runScaffold package listing args =
      .error ⟨good.foldl (processModule package)
          (moduleStagePre package (pythonBindingsStep args (mainLibraryStep args initState))),
        .moduleNotPascalCase bad⟩ := by
  unfold runScaffold
  rw [hpost]
  simp only [Bool.not_true, Bool.false_eq_true, if_false]
  unfold moduleStage
  rw [hsplit]
  simp only [List.isEmpty_eq_true, List.append_eq_nil, List.cons_ne_nil, and_false,
    if_false]
  rw [moduleLoop_first_failure package bad hbad good _ rest hgood]

theorem c4_abort_at_first_invalid_witness :
    post_clone_ok [".git"] = true ∧
    (⟨false, false, ["Aa", "b_b"], [], []⟩ : Args).daq_modules = ["Aa"] ++ "b_b" :: [] ∧
    (∀ m ∈ ["Aa"], re_search_pascal m = true) ∧
    re_search_pascal "b_b" = false ∧
    runScaffold "pkg" [".git"] ⟨false, false, ["Aa", "b_b"], [], []⟩ =
      .error ⟨["Aa"].foldl (processModule "pkg")
          (moduleStagePre "pkg" (pythonBindingsStep ⟨false, false, ["Aa", "b_b"], [], []⟩
            (mainLibraryStep ⟨false, false, ["Aa", "b_b"], [], []⟩ initState))),
        .moduleNotPascalCase "b_b"⟩ :=
  ⟨by decide, by decide, by decide, by decide,
    c4_abort_at_first_invalid "pkg" [".git"] ⟨false, false, ["Aa", "b_b"], [], []⟩
      ["Aa"] [] "b_b" (by decide) (by decide) (by decide) (by decide)⟩

/-! ## Claim C6 — the post-clone emptiness check -/

theorem insertSorted_perm (x : String) (l : List String) :
    (insertSorted x l).Perm (x :: l) := by
  induction l with
  | nil => exact List.Perm.refl _
  | cons y ys ih =>
    unfold insertSorted
    by_cases h : leStr x y = true
    · rw [if_pos h]
    · rw [if_neg h]
      exact (List.Perm.cons y ih).trans (List.Perm.swap x y ys)

theorem sortListing_perm (l : List String) : (sortListing l).Perm l := by
  induction l with
  | nil => exact List.Perm.refl _
  | cons x xs ih =>
    have hstep : sortListing (x :: xs) = insertSorted x (sortListing xs) := rfl
    rw [hstep]
    exact (insertSorted_perm x (sortListing xs)).trans (List.Perm.cons x ih)

theorem perm_pair_elim {l : List String} {a b : String} (h : l.Perm [a, b]) :
    l = [a, b] ∨ l = [b, a] := by
  have hlen : l.length = 2 := h.length_eq
  match l, hlen with
  | [x, y], _ =>
    have hx : x ∈ [a, b] := h.mem_iff.mp (by simp)
    simp only [List.mem_cons, List.mem_singleton, List.not_mem_nil, or_false] at hx
    rcases hx with hx | hx
    · rw [hx] at h
      have hy : y = b := by simpa using List.perm_singleton.mp h.cons_inv
      left
      rw [hx, hy]
    · rw [hx] at h
      have hswap : ([a, b] : List String).Perm [b, a] := List.Perm.swap b a []
      have hy : y = a := by simpa using List.perm_singleton.mp (h.trans hswap).cons_inv
      right
      rw [hx, hy]

/-- Claim C6: immediately after the clone, the run proceeds iff the
top-level listing is exactly one of the three allowed content sets (as a
listing in any order: `{.git}`, `{.git, README.md}`, `{.git, docs}`); any
other listing makes the run abort with cleanup before anything — scaffold
content or build descriptor — is written (the state at abort is the empty
initial state). -/
theorem c6_post_clone_exactness (listing : List String) (package : String) (args : Args) :
    (post_clone_ok listing = true ↔
      (listing.Perm [".git"] ∨ listing.Perm [".git", "README.md"] ∨
        listing.Perm [".git", "docs"])) ∧
    (post_clone_ok listing = false →
      runScaffold package listing args = .error ⟨initState, .repoNotEmpty⟩ ∧
        initState.files = [] ∧ initState.dirs = []) := by
  constructor
  · constructor
    · intro h
      by_cases h1 : listing = [".git"]
      · left; rw [h1]
      by_cases h2 : sortListing listing = [".git", "README.md"]
      · right; left; exact h2 ▸ (sortListing_perm listing).symm
      by_cases h3 : sortListing listing = [".git", "docs"]
      · right; right; exact h3 ▸ (sortListing_perm listing).symm
      · unfold post_clone_ok at h
        simp [h1, h2, h3] at h
    · intro h
      rcases h with h | h | h
      · have heq : listing = [".git"] := List.perm_singleton.mp h
        subst heq; decide
      · rcases perm_pair_elim h with h' | h' <;> (subst h'; decide)
      · rcases perm_pair_elim h with h' | h' <;> (subst h'; decide)
  · intro hf
    refine ⟨?_, rfl, rfl⟩
    unfold runScaffold
    rw [hf]
    rfl

theorem c6_post_clone_exactness_witness :
    (post_clone_ok [".git", "extra.txt"] = true ↔
      (([".git", "extra.txt"] : List String).Perm [".git"] ∨
        ([".git", "extra.txt"] : List String).Perm [".git", "README.md"] ∨
        ([".git", "extra.txt"] : List String).Perm [".git", "docs"])) ∧
    (post_clone_ok [".git", "extra.txt"] = false →
      runScaffold "pkg" [".git", "extra.txt"] defaultArgs =
          .error ⟨initState, .repoNotEmpty⟩ ∧
        initState.files = [] ∧ initState.dirs = []) :=
  c6_post_clone_exactness [".git", "extra.txt"] "pkg" defaultArgs

/-! ## Claim C8 — fixed section order, independent of flag order -/

/-- The module names contributed by `--daq-module` occurrences, in
occurrence order. -/
def modsOf (l : List CliArg) : List String :=
  l.filterMap (fun a => match a with | .daqModule n => some n | _ => none)

/-- The names contributed by `--user-app` occurrences. -/
def appsOf (l : List CliArg) : List String :=
  l.filterMap (fun a => match a with | .userApp n => some n | _ => none)

/-- The names contributed by `--test-app` occurrences. -/
def testsOf (l : List CliArg) : List String :=
  l.filterMap (fun a => match a with | .testApp n => some n | _ => none)

theorem foldl_applyCliArg (l : List CliArg) (a : Args) :
    l.foldl applyCliArg a =
      ⟨a.contains_main_library || decide (CliArg.mainLibrary ∈ l),
        a.contains_python_bindings || decide (CliArg.pythonBindings ∈ l),
        a.daq_modules ++ modsOf l, a.user_apps ++ appsOf l, a.test_apps ++ testsOf l⟩ := by
  induction l generalizing a with
  | nil => simp [modsOf, appsOf, testsOf]
  | cons x xs ih =>
    rw [List.foldl_cons, ih]
    cases x <;> simp [applyCliArg, modsOf, appsOf, testsOf]

/-- `argparse` semantics: the parsed namespace depends only on which
boolean flags occur and on the per-category name sequences, not on how the
flags were interleaved on the command line. -/
theorem parse_args_spec (l : List CliArg) :
    parse_args l = ⟨decide (CliArg.mainLibrary ∈ l), decide (CliArg.pythonBindings ∈ l),
      modsOf l, appsOf l, testsOf l⟩ := by
  unfold parse_args defaultArgs
  rw [foldl_applyCliArg]
  simp

/-- Claim C8: for any two command lines with the same flags (in any order)
the whole run — and hence the generated build descriptor — is identical,
and for every state the generated `CMakeLists.txt` text is the fixed
layout: preamble, then the seven sections in the fixed order (package
lookups, code generation, library, python bindings, plugins, applications,
unit tests), then the single fixed `daq_install()` line. -/
theorem c8_fixed_section_order (l₁ l₂ : List CliArg)
    (package generation_time : String) (listing : List String) (st : GenState)
    (hml : CliArg.mainLibrary ∈ l₁ ↔ CliArg.mainLibrary ∈ l₂)
    (hpb : CliArg.pythonBindings ∈ l₁ ↔ CliArg.pythonBindings ∈ l₂)
    (hmods : modsOf l₁ = modsOf l₂) (happs : appsOf l₁ = appsOf l₂)
    (htests : testsOf l₁ = testsOf l₂) :
    runScaffold package listing (parse_args l₁) =
        runScaffold package listing (parse_args l₂) ∧
    gen_cmakelists st package generation_time =
      cmakePreamble package generation_time
      ++ print_cmakelists_section st.find_package_calls none
      ++ print_cmakelists_section st.daq_codegen_calls (some "daq_codegen")
      ++ print_cmakelists_section st.daq_add_library_calls (some "daq_add_library")
      ++ print_cmakelists_section st.daq_add_python_bindings_calls (some "daq_add_python_bindings")
      ++ print_cmakelists_section st.daq_add_plugin_calls (some "daq_add_plugin")
      ++ print_cmakelists_section st.daq_add_application_calls (some "daq_add_application")
      ++ print_cmakelists_section st.daq_add_unit_test_calls (some "daq_add_unit_test")
      ++ "daq_install()\n\n" := by
  constructor
  · have hargs : parse_args l₁ = parse_args l₂ := by
      rw [parse_args_spec, parse_args_spec, hmods, happs, htests,
        decide_eq_decide.mpr hml, decide_eq_decide.mpr hpb]
    rw [hargs]
  · rfl

theorem c8_fixed_section_order_witness :
    runScaffold "pkg" [".git"]
        (parse_args [CliArg.daqModule "Foo", CliArg.mainLibrary]) =
      runScaffold "pkg" [".git"]
        (parse_args [CliArg.mainLibrary, CliArg.daqModule "Foo"]) ∧
    gen_cmakelists initState "pkg" "2021-01-01" =
      cmakePreamble "pkg" "2021-01-01"
      ++ print_cmakelists_section initState.find_package_calls none
      ++ print_cmakelists_section initState.daq_codegen_calls (some "daq_codegen")
      ++ print_cmakelists_section initState.daq_add_library_calls (some "daq_add_library")
      ++ print_cmakelists_section initState.daq_add_python_bindings_calls (some "daq_add_python_bindings")
      ++ print_cmakelists_section initState.daq_add_plugin_calls (some "daq_add_plugin")
      ++ print_cmakelists_section initState.daq_add_application_calls (some "daq_add_application")
      ++ print_cmakelists_section initState.daq_add_unit_test_calls (some "daq_add_unit_test")
      ++ "daq_install()\n\n" :=
  c8_fixed_section_order [CliArg.daqModule "Foo", CliArg.mainLibrary]
    [CliArg.mainLibrary, CliArg.daqModule "Foo"] "pkg" "2021-01-01" [".git"] initState
    (by decide) (by decide) (by decide) (by decide) (by decide)

/-! ## Claim C1 — piecewise evaluation of the substitution pipeline

To evaluate the five replacement passes on a template containing
already-inserted (symbolic) names, we view a text as a list of pieces:
single separator characters that cannot occur in the active pattern,
concrete literal segments that are either the pattern itself or
pattern-free, and protected "hole" segments (inserted names) that are
pattern-free by hypothesis.  On such a guarded piece list, one replacement
pass rewrites exactly the pattern pieces and nothing else. -/

inductive Piece
  | sep (d : Char)
  | lit (s : List Char)
  | hole (s : List Char)
deriving DecidableEq

def piecesText : List Piece → List Char
  | [] => []
  | .sep d :: ps => d :: piecesText ps
  | .lit s :: ps => s ++ piecesText ps
  | .hole s :: ps => s ++ piecesText ps

/-- One replacement pass at the piece level: a literal equal to the
pattern becomes a hole filled with the replacement. -/
def substPieces (pat rep : List Char) : List Piece → List Piece
  | [] => []
  | .sep d :: ps => .sep d :: substPieces pat rep ps
  | .lit s :: ps => (if s == pat then .hole rep else .lit s) :: substPieces pat rep ps
  | .hole s :: ps => .hole s :: substPieces pat rep ps

/-- The guard making a piece list safe for one replacement pass with
pattern `pat`: separators avoid `pat`, every literal is the pattern itself
or pattern-free, every hole is pattern-free, and any literal or hole is
followed by a separator (or ends the list), so no match can straddle a
piece boundary. -/
inductive Guarded (pat : List Char) : List Piece → Prop
  | nil : Guarded pat []
  | sep_cons (d : Char) (ps : List Piece) : d ∉ pat → Guarded pat ps →
      Guarded pat (.sep d :: ps)
  | last_lit (s : List Char) : s = pat ∨ containsTok pat s = false →
      Guarded pat [.lit s]
  | last_hole (s : List Char) : containsTok pat s = false →
      Guarded pat [.hole s]
  | lit_cons (s : List Char) (d : Char) (ps : List Piece) :
      s = pat ∨ containsTok pat s = false → d ∉ pat →
      Guarded pat (.sep d :: ps) → Guarded pat (.lit s :: .sep d :: ps)
  | hole_cons (s : List Char) (d : Char) (ps : List Piece) :
      containsTok pat s = false → d ∉ pat →
      Guarded pat (.sep d :: ps) → Guarded pat (.hole s :: .sep d :: ps)

/-- Replacing the whole pattern gives the replacement. -/
theorem strReplaceL_self (pat rep : List Char) (h : pat ≠ []) :
    strReplaceL pat rep pat = rep := by
  cases pat with
  | nil => exact absurd rfl h
  | cons c cs =>
    rw [strReplaceL_cons, if_pos ?_]
    · have hlen : (c :: cs).length - 1 = cs.length := by simp
      rw [hlen, List.drop_length, strReplaceL_nil, List.append_nil]
    · rw [Bool.and_eq_true]
      exact ⟨rfl, List.isPrefixOf_iff_prefix.mpr (List.prefix_refl _)⟩

/-- Pattern not occurring at all: if the pattern is non-empty then a
string of the shape described by a failed containment check keeps. -/
theorem strReplaceL_cons_sep (pat rep : List Char) (d : Char) (hd : d ∉ pat)
    (b : List Char) :
    strReplaceL pat rep (d :: b) = d :: strReplaceL pat rep b := by
  have h := strReplaceL_append_sep pat rep d hd 0 [] b (by simp)
  rw [List.nil_append, strReplaceL_nil, List.nil_append] at h
  exact h

/-- One replacement pass on a guarded piece list rewrites exactly the
pattern pieces. -/
theorem strReplaceL_pieces (pat rep : List Char) (hpat : pat ≠ []) :
    ∀ ps, Guarded pat ps →
      strReplaceL pat rep (piecesText ps) = piecesText (substPieces pat rep ps) := by
  intro ps hg
  induction hg with
  | nil => rfl
  | sep_cons d ps hd hps ih =>
    show strReplaceL pat rep (d :: piecesText ps) =
      d :: piecesText (substPieces pat rep ps)
    rw [strReplaceL_cons_sep pat rep d hd, ih]
  | last_lit s hs =>
    show strReplaceL pat rep (s ++ []) =
      piecesText [if s == pat then Piece.hole rep else Piece.lit s]
    rcases hs with hs | hs
    · subst hs
      rw [List.append_nil, beq_self_eq_true, if_pos rfl]
      show strReplaceL s rep s = rep ++ []
      rw [List.append_nil, strReplaceL_self s rep hpat]
    · have hne : (s == pat) = false := by
        refine beq_eq_false_iff_ne.mpr ?_
        intro he
        subst he
        have := containsTok_append_self s hpat [] []
        rw [List.nil_append, List.append_nil] at this
        rw [this] at hs
        cases hs
      rw [hne]
      show strReplaceL pat rep (s ++ []) = s ++ []
      rw [List.append_nil, strReplaceL_of_not_contains pat rep s hs]
  | last_hole s hs =>
    show strReplaceL pat rep (s ++ []) = s ++ []
    rw [List.append_nil, strReplaceL_of_not_contains pat rep s hs]
  | lit_cons s d ps hs hd hps ih =>
    have htail : strReplaceL pat rep (piecesText ps) =
        piecesText (substPieces pat rep ps) := by
      have h1 : strReplaceL pat rep (d :: piecesText ps) =
          d :: strReplaceL pat rep (piecesText ps) :=
        strReplaceL_cons_sep pat rep d hd _
      have h2 : strReplaceL pat rep (d :: piecesText ps) =
          d :: piecesText (substPieces pat rep ps) := ih
      rw [h1] at h2
      exact List.cons_injective.eq_iff.mp h2
    show strReplaceL pat rep (s ++ d :: piecesText ps) =
      piecesText ((if s == pat then Piece.hole rep else Piece.lit s) ::
        Piece.sep d :: substPieces pat rep ps)
    rw [strReplaceL_append_sep pat rep d hd s.length s _ (le_refl _), htail]
    rcases hs with hs | hs
    · subst hs
      rw [beq_self_eq_true, if_pos rfl, strReplaceL_self s rep hpat]
      rfl
    · have hne : (s == pat) = false := by
        refine beq_eq_false_iff_ne.mpr ?_
        intro he
        subst he
        have := containsTok_append_self s hpat [] []
        rw [List.nil_append, List.append_nil] at this
        rw [this] at hs
        cases hs
      rw [hne, strReplaceL_of_not_contains pat rep s hs]
      rfl
  | hole_cons s d ps hs hd hps ih =>
    have htail : strReplaceL pat rep (piecesText ps) =
        piecesText (substPieces pat rep ps) := by
      have h1 : strReplaceL pat rep (d :: piecesText ps) =
          d :: strReplaceL pat rep (piecesText ps) :=
        strReplaceL_cons_sep pat rep d hd _
      have h2 : strReplaceL pat rep (d :: piecesText ps) =
          d :: piecesText (substPieces pat rep ps) := ih
      rw [h1] at h2
      exact List.cons_injective.eq_iff.mp h2
    show strReplaceL pat rep (s ++ d :: piecesText ps) =
      s ++ d :: piecesText (substPieces pat rep ps)
    rw [strReplaceL_append_sep pat rep d hd s.length s _ (le_refl _), htail,
      strReplaceL_of_not_contains pat rep s hs]

/-- On a guarded piece list all of whose literals are pattern-free, the
pattern does not occur in the text at all. -/
theorem containsTok_pieces (pat : List Char) (hpat : pat ≠ []) :
    ∀ ps, Guarded pat ps → (∀ s, Piece.lit s ∈ ps → containsTok pat s = false) →
      containsTok pat (piecesText ps) = false := by
  intro ps hg
  induction hg with
  | nil =>
    intro _
    show pat.isEmpty = false
    cases pat with
    | nil => exact absurd rfl hpat
    | cons _ _ => rfl
  | sep_cons d ps hd hps ih =>
    intro hlits
    show (pat.isPrefixOf (d :: piecesText ps) || containsTok pat (piecesText ps)) = false
    rw [isPrefixOf_cons_of_not_mem hd hpat, ih (fun s hsm => hlits s (by simp [hsm]))]
    rfl
  | last_lit s hs =>
    intro hlits
    have hfree : containsTok pat s = false := hlits s (by simp)
    show containsTok pat (s ++ []) = false
    rw [List.append_nil]
    exact hfree
  | last_hole s hs =>
    intro _
    show containsTok pat (s ++ []) = false
    rw [List.append_nil]
    exact hs
  | lit_cons s d ps hs hd hps ih =>
    intro hlits
    have hfree : containsTok pat s = false := hlits s (by simp)
    have htail : containsTok pat (piecesText ps) = false := by
      have h2 := ih (fun u hu => hlits u (by simp [hu]))
      have h3 : (pat.isPrefixOf (d :: piecesText ps) ||
          containsTok pat (piecesText ps)) = false := h2
      rcases Bool.or_eq_false_iff.mp h3 with ⟨_, h4⟩
      exact h4
    exact containsTok_append_sep pat d hd s (piecesText ps) hfree htail
  | hole_cons s d ps hs hd hps ih =>
    intro hlits
    have htail : containsTok pat (piecesText ps) = false := by
      have h2 := ih (fun u hu => hlits u (by simp [hu]))
      have h3 : (pat.isPrefixOf (d :: piecesText ps) ||
          containsTok pat (piecesText ps)) = false := h2
      rcases Bool.or_eq_false_iff.mp h3 with ⟨_, h4⟩
      exact h4
    exact containsTok_append_sep pat d hd s (piecesText ps) hs htail

/-- A text that holds the pattern as an explicit segment contains it (also
for the empty pattern). -/
theorem containsTok_append_self' (pat a b : List Char) :
    containsTok pat (a ++ (pat ++ b)) = true := by
  by_cases h : pat = []
  · subst h
    exact containsTok_nil_pat _
  · exact containsTok_append_self pat h a b

/-! ### Piece decompositions of the four module templates

Each template is decomposed so that every placeholder token is its own
literal piece and every piece boundary is a separator character occurring
in none of the five tokens. -/

def placeholderToks : List String :=
  ["RenameMe", "PACKAGE", "RENAMEME", "package", "renameme"]

def hppPieces : List Piece :=
  [.lit "#ifndef".data, .sep ' ', .lit "PACKAGE".data, .sep '_',
   .lit "RENAMEME".data, .sep '_', .lit "HPP_\nnamespace".data, .sep ' ',
   .lit "package".data, .sep ';', .lit "\nclass".data, .sep ' ',
   .lit "RenameMe".data, .sep ';', .lit "\n#endif\n".data]

def cppPieces : List Piece :=
  [.lit "#include".data, .sep ' ', .sep '"', .lit "RenameMe".data, .sep '.',
   .lit "hpp\"\nnamespace".data, .sep ' ', .lit "package".data, .sep ';',
   .lit "\n".data]

def jsonnetPieces : List Piece :=
  [.lit "local ns = \"dunedaq".data, .sep '.', .lit "package".data, .sep '.',
   .lit "renameme".data, .sep '"', .lit ";\n".data]

def infoPieces : List Piece :=
  [.lit "local info_ns = \"dunedaq".data, .sep '.', .lit "package".data, .sep '.',
   .lit "renameme".data, .sep '"', .lit ";\n".data]

/-- The hpp pieces after the five passes: `PACKAGE`, `RENAMEME`, `package`
and `RenameMe` have become holes carrying the corresponding name forms. -/
def hppFinalPieces (pkgD modP : List Char) : List Piece :=
  [.lit "#ifndef".data, .sep ' ', .hole (upperL pkgD), .sep '_',
   .hole (upperL modP), .sep '_', .lit "HPP_\nnamespace".data, .sep ' ',
   .hole (lowerL pkgD), .sep ';', .lit "\nclass".data, .sep ' ',
   .hole modP, .sep ';', .lit "\n#endif\n".data]

def cppFinalPieces (pkgD modP : List Char) : List Piece :=
  [.lit "#include".data, .sep ' ', .sep '"', .hole modP, .sep '.',
   .lit "hpp\"\nnamespace".data, .sep ' ', .hole (lowerL pkgD), .sep ';',
   .lit "\n".data]

def jsonnetFinalPieces (pkgD modP : List Char) : List Piece :=
  [.lit "local ns = \"dunedaq".data, .sep '.', .hole (lowerL pkgD), .sep '.',
   .hole (lowerL modP), .sep '"', .lit ";\n".data]

def infoFinalPieces (pkgD modP : List Char) : List Piece :=
  [.lit "local info_ns = \"dunedaq".data, .sep '.', .hole (lowerL pkgD), .sep '.',
   .hole (lowerL modP), .sep '"', .lit ";\n".data]

/-- If the pattern occurs in the right part it occurs in the whole. -/
theorem containsTok_append_right (pat : List Char) :
    ∀ s t, containsTok pat t = true → containsTok pat (s ++ t) = true := by
  intro s
  induction s with
  | nil => intro t h; rwa [List.nil_append]
  | cons c s' ih =>
    intro t h
    rw [List.cons_append]
    show (pat.isPrefixOf (c :: (s' ++ t)) || containsTok pat (s' ++ t)) = true
    rw [ih t h]
    simp

/-- A piece list holding `hole x` produces a text containing `x`. -/
theorem containsTok_pieces_hole (x : List Char) :
    ∀ ps, Piece.hole x ∈ ps → containsTok x (piecesText ps) = true := by
  intro ps
  induction ps with
  | nil => intro h; cases h
  | cons p ps ih =>
    intro h
    cases p with
    | sep d =>
      have hmem : Piece.hole x ∈ ps := by
        rcases List.mem_cons.mp h with h' | h'
        · cases h'
        · exact h'
      show (x.isPrefixOf (d :: piecesText ps) || containsTok x (piecesText ps)) = true
      rw [ih hmem]
      simp
    | lit s =>
      have hmem : Piece.hole x ∈ ps := by
        rcases List.mem_cons.mp h with h' | h'
        · cases h'
        · exact h'
      show containsTok x (s ++ piecesText ps) = true
      exact containsTok_append_right x s _ (ih hmem)
    | hole s =>
      rcases List.mem_cons.mp h with h' | h'
      · have hx : s = x := by injection h'.symm
        subst hx
        show containsTok s (s ++ piecesText ps) = true
        have := containsTok_append_self' s [] (piecesText ps)
        rwa [List.nil_append] at this
      · show containsTok x (s ++ piecesText ps) = true
        exact containsTok_append_right x s _ (ih h')

/-- The five passes on the header template: the pipeline value, the absence
of all placeholder tokens in the result, and the presence of each case
form the template provides. -/
theorem hpp_file_ok (pkgD modP : List Char)
    (hfree : ∀ t ∈ placeholderToks,
      ∀ f ∈ [modP, upperL pkgD, upperL modP, lowerL pkgD], containsTok t.data f = false) :
    strReplaceL "renameme".data (lowerL modP)
      (strReplaceL "package".data (lowerL pkgD)
        (strReplaceL "RENAMEME".data (upperL modP)
          (strReplaceL "PACKAGE".data (upperL pkgD)
            (strReplaceL "RenameMe".data modP RenameMeHpp.data)))) =
      piecesText (hppFinalPieces pkgD modP) ∧
    (∀ t ∈ placeholderToks,
      containsTok t.data (piecesText (hppFinalPieces pkgD modP)) = false) ∧
    containsTok modP (piecesText (hppFinalPieces pkgD modP)) = true ∧
    containsTok (upperL modP) (piecesText (hppFinalPieces pkgD modP)) = true ∧
    containsTok (upperL pkgD) (piecesText (hppFinalPieces pkgD modP)) = true ∧
    containsTok (lowerL pkgD) (piecesText (hppFinalPieces pkgD modP)) = true := by
  refine ⟨?_, ?_, ?_, ?_, ?_, ?_⟩
  · rw [show RenameMeHpp.data = piecesText hppPieces from rfl]
    rw [strReplaceL_pieces "RenameMe".data modP (by decide) hppPieces (by
      repeat
        first
        | exact Guarded.nil
        | exact Guarded.last_lit _ (Or.inl rfl)
        | exact Guarded.last_lit _ (Or.inr (by decide))
        | exact Guarded.last_hole _ (hfree _ (by simp [placeholderToks]) _ (by simp))
        | refine Guarded.sep_cons _ _ (by decide) ?_
        | refine Guarded.lit_cons _ _ _ (Or.inl rfl) (by decide) ?_
        | refine Guarded.lit_cons _ _ _ (Or.inr (by decide)) (by decide) ?_
        | refine Guarded.hole_cons _ _ _
            (hfree _ (by simp [placeholderToks]) _ (by simp)) (by decide) ?_)]
    rw [strReplaceL_pieces "PACKAGE".data (upperL pkgD) (by decide) _ (by
      repeat
        first
        | exact Guarded.nil
        | exact Guarded.last_lit _ (Or.inl rfl)
        | exact Guarded.last_lit _ (Or.inr (by decide))
        | exact Guarded.last_hole _ (hfree _ (by simp [placeholderToks]) _ (by simp))
        | refine Guarded.sep_cons _ _ (by decide) ?_
        | refine Guarded.lit_cons _ _ _ (Or.inl rfl) (by decide) ?_
        | refine Guarded.lit_cons _ _ _ (Or.inr (by decide)) (by decide) ?_
        | refine Guarded.hole_cons _ _ _
            (hfree _ (by simp [placeholderToks]) _ (by simp)) (by decide) ?_)]
    rw [strReplaceL_pieces "RENAMEME".data (upperL modP) (by decide) _ (by
      repeat
        first
        | exact Guarded.nil
        | exact Guarded.last_lit _ (Or.inl rfl)
        | exact Guarded.last_lit _ (Or.inr (by decide))
        | exact Guarded.last_hole _ (hfree _ (by simp [placeholderToks]) _ (by simp))
        | refine Guarded.sep_cons _ _ (by decide) ?_
        | refine Guarded.lit_cons _ _ _ (Or.inl rfl) (by decide) ?_
        | refine Guarded.lit_cons _ _ _ (Or.inr (by decide)) (by decide) ?_
        | refine Guarded.hole_cons _ _ _
            (hfree _ (by simp [placeholderToks]) _ (by simp)) (by decide) ?_)]
    rw [strReplaceL_pieces "package".data (lowerL pkgD) (by decide) _ (by
      repeat
        first
        | exact Guarded.nil
        | exact Guarded.last_lit _ (Or.inl rfl)
        | exact Guarded.last_lit _ (Or.inr (by decide))
        | exact Guarded.last_hole _ (hfree _ (by simp [placeholderToks]) _ (by simp))
        | refine Guarded.sep_cons _ _ (by decide) ?_
        | refine Guarded.lit_cons _ _ _ (Or.inl rfl) (by decide) ?_
        | refine Guarded.lit_cons _ _ _ (Or.inr (by decide)) (by decide) ?_
        | refine Guarded.hole_cons _ _ _
            (hfree _ (by simp [placeholderToks]) _ (by simp)) (by decide) ?_)]
    rw [strReplaceL_pieces "renameme".data (lowerL modP) (by decide) _ (by
      repeat
        first
        | exact Guarded.nil
        | exact Guarded.last_lit _ (Or.inl rfl)
        | exact Guarded.last_lit _ (Or.inr (by decide))
        | exact Guarded.last_hole _ (hfree _ (by simp [placeholderToks]) _ (by simp))
        | refine Guarded.sep_cons _ _ (by decide) ?_
        | refine Guarded.lit_cons _ _ _ (Or.inl rfl) (by decide) ?_
        | refine Guarded.lit_cons _ _ _ (Or.inr (by decide)) (by decide) ?_
        | refine Guarded.hole_cons _ _ _
            (hfree _ (by simp [placeholderToks]) _ (by simp)) (by decide) ?_)]
    rfl
  · intro t ht
    simp only [placeholderToks, List.mem_cons, List.not_mem_nil, or_false] at ht
    rcases ht with rfl | rfl | rfl | rfl | rfl <;>
    · refine containsTok_pieces _ (by decide) _ ?_ ?_
      · repeat
          first
          | exact Guarded.nil
          | exact Guarded.last_lit _ (Or.inl rfl)
          | exact Guarded.last_lit _ (Or.inr (by decide))
          | exact Guarded.last_hole _ (hfree _ (by simp [placeholderToks]) _ (by simp))
          | refine Guarded.sep_cons _ _ (by decide) ?_
          | refine Guarded.lit_cons _ _ _ (Or.inl rfl) (by decide) ?_
          | refine Guarded.lit_cons _ _ _ (Or.inr (by decide)) (by decide) ?_
          | refine Guarded.hole_cons _ _ _
              (hfree _ (by simp [placeholderToks]) _ (by simp)) (by decide) ?_
      · intro s hs
        simp only [hppFinalPieces, List.mem_cons, List.not_mem_nil, or_false,
          Piece.lit.injEq, reduceCtorEq, false_or, or_false] at hs
        rcases hs with rfl | rfl | rfl | rfl <;> decide
  · exact containsTok_pieces_hole modP _ (by simp [hppFinalPieces])
  · exact containsTok_pieces_hole (upperL modP) _ (by simp [hppFinalPieces])
  · exact containsTok_pieces_hole (upperL pkgD) _ (by simp [hppFinalPieces])
  · exact containsTok_pieces_hole (lowerL pkgD) _ (by simp [hppFinalPieces])

/-- The five passes on the implementation template. -/
theorem cpp_file_ok (pkgD modP : List Char)
    (hfree : ∀ t ∈ placeholderToks,
      ∀ f ∈ [modP, upperL pkgD, upperL modP, lowerL pkgD, lowerL modP],
        containsTok t.data f = false) :
    strReplaceL "renameme".data (lowerL modP)
      (strReplaceL "package".data (lowerL pkgD)
        (strReplaceL "RENAMEME".data (upperL modP)
          (strReplaceL "PACKAGE".data (upperL pkgD)
            (strReplaceL "RenameMe".data modP RenameMeCpp.data)))) =
      piecesText (cppFinalPieces pkgD modP) ∧
    (∀ t ∈ placeholderToks,
      containsTok t.data (piecesText (cppFinalPieces pkgD modP)) = false) ∧
    containsTok modP (piecesText (cppFinalPieces pkgD modP)) = true ∧
    containsTok (lowerL pkgD) (piecesText (cppFinalPieces pkgD modP)) = true := by
  refine ⟨?_, ?_, ?_, ?_⟩
  · rw [show RenameMeCpp.data = piecesText cppPieces from rfl]
    rw [strReplaceL_pieces "RenameMe".data modP (by decide) cppPieces (by
      repeat
        first
        | exact Guarded.nil
        | exact Guarded.last_lit _ (Or.inl rfl)
        | exact Guarded.last_lit _ (Or.inr (by decide))
        | exact Guarded.last_hole _ (hfree _ (by simp [placeholderToks]) _ (by simp))
        | refine Guarded.sep_cons _ _ (by decide) ?_
        | refine Guarded.lit_cons _ _ _ (Or.inl rfl) (by decide) ?_
        | refine Guarded.lit_cons _ _ _ (Or.inr (by decide)) (by decide) ?_
        | refine Guarded.hole_cons _ _ _
            (hfree _ (by simp [placeholderToks]) _ (by simp)) (by decide) ?_)]
    rw [strReplaceL_pieces "PACKAGE".data (upperL pkgD) (by decide) _ (by
      repeat
        first
        | exact Guarded.nil
        | exact Guarded.last_lit _ (Or.inl rfl)
        | exact Guarded.last_lit _ (Or.inr (by decide))
        | exact Guarded.last_hole _ (hfree _ (by simp [placeholderToks]) _ (by simp))
        | refine Guarded.sep_cons _ _ (by decide) ?_
        | refine Guarded.lit_cons _ _ _ (Or.inl rfl) (by decide) ?_
        | refine Guarded.lit_cons _ _ _ (Or.inr (by decide)) (by decide) ?_
        | refine Guarded.hole_cons _ _ _
            (hfree _ (by simp [placeholderToks]) _ (by simp)) (by decide) ?_)]
    rw [strReplaceL_pieces "RENAMEME".data (upperL modP) (by decide) _ (by
      repeat
        first
        | exact Guarded.nil
        | exact Guarded.last_lit _ (Or.inl rfl)
        | exact Guarded.last_lit _ (Or.inr (by decide))
        | exact Guarded.last_hole _ (hfree _ (by simp [placeholderToks]) _ (by simp))
        | refine Guarded.sep_cons _ _ (by decide) ?_
        | refine Guarded.lit_cons _ _ _ (Or.inl rfl) (by decide) ?_
        | refine Guarded.lit_cons _ _ _ (Or.inr (by decide)) (by decide) ?_
        | refine Guarded.hole_cons _ _ _
            (hfree _ (by simp [placeholderToks]) _ (by simp)) (by decide) ?_)]
    rw [strReplaceL_pieces "package".data (lowerL pkgD) (by decide) _ (by
      repeat
        first
        | exact Guarded.nil
        | exact Guarded.last_lit _ (Or.inl rfl)
        | exact Guarded.last_lit _ (Or.inr (by decide))
        | exact Guarded.last_hole _ (hfree _ (by simp [placeholderToks]) _ (by simp))
        | refine Guarded.sep_cons _ _ (by decide) ?_
        | refine Guarded.lit_cons _ _ _ (Or.inl rfl) (by decide) ?_
        | refine Guarded.lit_cons _ _ _ (Or.inr (by decide)) (by decide) ?_
        | refine Guarded.hole_cons _ _ _
            (hfree _ (by simp [placeholderToks]) _ (by simp)) (by decide) ?_)]
    rw [strReplaceL_pieces "renameme".data (lowerL modP) (by decide) _ (by
      repeat
        first
        | exact Guarded.nil
        | exact Guarded.last_lit _ (Or.inl rfl)
        | exact Guarded.last_lit _ (Or.inr (by decide))
        | exact Guarded.last_hole _ (hfree _ (by simp [placeholderToks]) _ (by simp))
        | refine Guarded.sep_cons _ _ (by decide) ?_
        | refine Guarded.lit_cons _ _ _ (Or.inl rfl) (by decide) ?_
        | refine Guarded.lit_cons _ _ _ (Or.inr (by decide)) (by decide) ?_
        | refine Guarded.hole_cons _ _ _
            (hfree _ (by simp [placeholderToks]) _ (by simp)) (by decide) ?_)]
    rfl
  · intro t ht
    simp only [placeholderToks, List.mem_cons, List.not_mem_nil, or_false] at ht
    rcases ht with rfl | rfl | rfl | rfl | rfl <;>
    · refine containsTok_pieces _ (by decide) _ ?_ ?_
      · repeat
          first
          | exact Guarded.nil
          | exact Guarded.last_lit _ (Or.inl rfl)
          | exact Guarded.last_lit _ (Or.inr (by decide))
          | exact Guarded.last_hole _ (hfree _ (by simp [placeholderToks]) _ (by simp))
          | refine Guarded.sep_cons _ _ (by decide) ?_
          | refine Guarded.lit_cons _ _ _ (Or.inl rfl) (by decide) ?_
          | refine Guarded.lit_cons _ _ _ (Or.inr (by decide)) (by decide) ?_
          | refine Guarded.hole_cons _ _ _
              (hfree _ (by simp [placeholderToks]) _ (by simp)) (by decide) ?_
      · intro s hs
        simp only [cppFinalPieces, List.mem_cons, List.not_mem_nil, or_false,
          Piece.lit.injEq, reduceCtorEq, false_or, or_false] at hs
        rcases hs with rfl | rfl | rfl <;> decide
  · exact containsTok_pieces_hole modP _ (by simp [cppFinalPieces])
  · exact containsTok_pieces_hole (lowerL pkgD) _ (by simp [cppFinalPieces])

/-- The five passes on the schema template. -/
theorem jsonnet_file_ok (pkgD modP : List Char)
    (hfree : ∀ t ∈ placeholderToks,
      ∀ f ∈ [modP, upperL pkgD, upperL modP, lowerL pkgD, lowerL modP],
        containsTok t.data f = false) :
    strReplaceL "renameme".data (lowerL modP)
      (strReplaceL "package".data (lowerL pkgD)
        (strReplaceL "RENAMEME".data (upperL modP)
          (strReplaceL "PACKAGE".data (upperL pkgD)
            (strReplaceL "RenameMe".data modP renamemeJsonnet.data)))) =
      piecesText (jsonnetFinalPieces pkgD modP) ∧
    (∀ t ∈ placeholderToks,
      containsTok t.data (piecesText (jsonnetFinalPieces pkgD modP)) = false) ∧
    containsTok (lowerL modP) (piecesText (jsonnetFinalPieces pkgD modP)) = true ∧
    containsTok (lowerL pkgD) (piecesText (jsonnetFinalPieces pkgD modP)) = true := by
  refine ⟨?_, ?_, ?_, ?_⟩
  · rw [show renamemeJsonnet.data = piecesText jsonnetPieces from rfl]
    rw [strReplaceL_pieces "RenameMe".data modP (by decide) jsonnetPieces (by
      repeat
        first
        | exact Guarded.nil
        | exact Guarded.last_lit _ (Or.inl rfl)
        | exact Guarded.last_lit _ (Or.inr (by decide))
        | exact Guarded.last_hole _ (hfree _ (by simp [placeholderToks]) _ (by simp))
        | refine Guarded.sep_cons _ _ (by decide) ?_
        | refine Guarded.lit_cons _ _ _ (Or.inl rfl) (by decide) ?_
        | refine Guarded.lit_cons _ _ _ (Or.inr (by decide)) (by decide) ?_
        | refine Guarded.hole_cons _ _ _
            (hfree _ (by simp [placeholderToks]) _ (by simp)) (by decide) ?_)]
    rw [strReplaceL_pieces "PACKAGE".data (upperL pkgD) (by decide) _ (by
      repeat
        first
        | exact Guarded.nil
        | exact Guarded.last_lit _ (Or.inl rfl)
        | exact Guarded.last_lit _ (Or.inr (by decide))
        | exact Guarded.last_hole _ (hfree _ (by simp [placeholderToks]) _ (by simp))
        | refine Guarded.sep_cons _ _ (by decide) ?_
        | refine Guarded.lit_cons _ _ _ (Or.inl rfl) (by decide) ?_
        | refine Guarded.lit_cons _ _ _ (Or.inr (by decide)) (by decide) ?_
        | refine Guarded.hole_cons _ _ _
            (hfree _ (by simp [placeholderToks]) _ (by simp)) (by decide) ?_)]
    rw [strReplaceL_pieces "RENAMEME".data (upperL modP) (by decide) _ (by
      repeat
        first
        | exact Guarded.nil
        | exact Guarded.last_lit _ (Or.inl rfl)
        | exact Guarded.last_lit _ (Or.inr (by decide))
        | exact Guarded.last_hole _ (hfree _ (by simp [placeholderToks]) _ (by simp))
        | refine Guarded.sep_cons _ _ (by decide) ?_
        | refine Guarded.lit_cons _ _ _ (Or.inl rfl) (by decide) ?_
        | refine Guarded.lit_cons _ _ _ (Or.inr (by decide)) (by decide) ?_
        | refine Guarded.hole_cons _ _ _
            (hfree _ (by simp [placeholderToks]) _ (by simp)) (by decide) ?_)]
    rw [strReplaceL_pieces "package".data (lowerL pkgD) (by decide) _ (by
      repeat
        first
        | exact Guarded.nil
        | exact Guarded.last_lit _ (Or.inl rfl)
        | exact Guarded.last_lit _ (Or.inr (by decide))
        | exact Guarded.last_hole _ (hfree _ (by simp [placeholderToks]) _ (by simp))
        | refine Guarded.sep_cons _ _ (by decide) ?_
        | refine Guarded.lit_cons _ _ _ (Or.inl rfl) (by decide) ?_
        | refine Guarded.lit_cons _ _ _ (Or.inr (by decide)) (by decide) ?_
        | refine Guarded.hole_cons _ _ _
            (hfree _ (by simp [placeholderToks]) _ (by simp)) (by decide) ?_)]
    rw [strReplaceL_pieces "renameme".data (lowerL modP) (by decide) _ (by
      repeat
        first
        | exact Guarded.nil
        | exact Guarded.last_lit _ (Or.inl rfl)
        | exact Guarded.last_lit _ (Or.inr (by decide))
        | exact Guarded.last_hole _ (hfree _ (by simp [placeholderToks]) _ (by simp))
        | refine Guarded.sep_cons _ _ (by decide) ?_
        | refine Guarded.lit_cons _ _ _ (Or.inl rfl) (by decide) ?_
        | refine Guarded.lit_cons _ _ _ (Or.inr (by decide)) (by decide) ?_
        | refine Guarded.hole_cons _ _ _
            (hfree _ (by simp [placeholderToks]) _ (by simp)) (by decide) ?_)]
    rfl
  · intro t ht
    simp only [placeholderToks, List.mem_cons, List.not_mem_nil, or_false] at ht
    rcases ht with rfl | rfl | rfl | rfl | rfl <;>
    · refine containsTok_pieces _ (by decide) _ ?_ ?_
      · repeat
          first
          | exact Guarded.nil
          | exact Guarded.last_lit _ (Or.inl rfl)
          | exact Guarded.last_lit _ (Or.inr (by decide))
          | exact Guarded.last_hole _ (hfree _ (by simp [placeholderToks]) _ (by simp))
          | refine Guarded.sep_cons _ _ (by decide) ?_
          | refine Guarded.lit_cons _ _ _ (Or.inl rfl) (by decide) ?_
          | refine Guarded.lit_cons _ _ _ (Or.inr (by decide)) (by decide) ?_
          | refine Guarded.hole_cons _ _ _
              (hfree _ (by simp [placeholderToks]) _ (by simp)) (by decide) ?_
      · intro s hs
        simp only [jsonnetFinalPieces, List.mem_cons, List.not_mem_nil, or_false,
          Piece.lit.injEq, reduceCtorEq, false_or, or_false] at hs
        rcases hs with rfl | rfl <;> decide
  · exact containsTok_pieces_hole (lowerL modP) _ (by simp [jsonnetFinalPieces])
  · exact containsTok_pieces_hole (lowerL pkgD) _ (by simp [jsonnetFinalPieces])

/-- The five passes on the info-schema template. -/
theorem info_file_ok (pkgD modP : List Char)
    (hfree : ∀ t ∈ placeholderToks,
      ∀ f ∈ [modP, upperL pkgD, upperL modP, lowerL pkgD, lowerL modP],
        containsTok t.data f = false) :
    strReplaceL "renameme".data (lowerL modP)
      (strReplaceL "package".data (lowerL pkgD)
        (strReplaceL "RENAMEME".data (upperL modP)
          (strReplaceL "PACKAGE".data (upperL pkgD)
            (strReplaceL "RenameMe".data modP renamemeinfoJsonnet.data)))) =
      piecesText (infoFinalPieces pkgD modP) ∧
    (∀ t ∈ placeholderToks,
      containsTok t.data (piecesText (infoFinalPieces pkgD modP)) = false) ∧
    containsTok (lowerL modP) (piecesText (infoFinalPieces pkgD modP)) = true ∧
    containsTok (lowerL pkgD) (piecesText (infoFinalPieces pkgD modP)) = true := by
  refine ⟨?_, ?_, ?_, ?_⟩
  · rw [show renamemeinfoJsonnet.data = piecesText infoPieces from rfl]
    rw [strReplaceL_pieces "RenameMe".data modP (by decide) infoPieces (by
      repeat
        first
        | exact Guarded.nil
        | exact Guarded.last_lit _ (Or.inl rfl)
        | exact Guarded.last_lit _ (Or.inr (by decide))
        | exact Guarded.last_hole _ (hfree _ (by simp [placeholderToks]) _ (by simp))
        | refine Guarded.sep_cons _ _ (by decide) ?_
        | refine Guarded.lit_cons _ _ _ (Or.inl rfl) (by decide) ?_
        | refine Guarded.lit_cons _ _ _ (Or.inr (by decide)) (by decide) ?_
        | refine Guarded.hole_cons _ _ _
            (hfree _ (by simp [placeholderToks]) _ (by simp)) (by decide) ?_)]
    rw [strReplaceL_pieces "PACKAGE".data (upperL pkgD) (by decide) _ (by
      repeat
        first
        | exact Guarded.nil
        | exact Guarded.last_lit _ (Or.inl rfl)
        | exact Guarded.last_lit _ (Or.inr (by decide))
        | exact Guarded.last_hole _ (hfree _ (by simp [placeholderToks]) _ (by simp))
        | refine Guarded.sep_cons _ _ (by decide) ?_
        | refine Guarded.lit_cons _ _ _ (Or.inl rfl) (by decide) ?_
        | refine Guarded.lit_cons _ _ _ (Or.inr (by decide)) (by decide) ?_
        | refine Guarded.hole_cons _ _ _
            (hfree _ (by simp [placeholderToks]) _ (by simp)) (by decide) ?_)]
    rw [strReplaceL_pieces "RENAMEME".data (upperL modP) (by decide) _ (by
      repeat
        first
        | exact Guarded.nil
        | exact Guarded.last_lit _ (Or.inl rfl)
        | exact Guarded.last_lit _ (Or.inr (by decide))
        | exact Guarded.last_hole _ (hfree _ (by simp [placeholderToks]) _ (by simp))
        | refine Guarded.sep_cons _ _ (by decide) ?_
        | refine Guarded.lit_cons _ _ _ (Or.inl rfl) (by decide) ?_
        | refine Guarded.lit_cons _ _ _ (Or.inr (by decide)) (by decide) ?_
        | refine Guarded.hole_cons _ _ _
            (hfree _ (by simp [placeholderToks]) _ (by simp)) (by decide) ?_)]
    rw [strReplaceL_pieces "package".data (lowerL pkgD) (by decide) _ (by
      repeat
        first
        | exact Guarded.nil
        | exact Guarded.last_lit _ (Or.inl rfl)
        | exact Guarded.last_lit _ (Or.inr (by decide))
        | exact Guarded.last_hole _ (hfree _ (by simp [placeholderToks]) _ (by simp))
        | refine Guarded.sep_cons _ _ (by decide) ?_
        | refine Guarded.lit_cons _ _ _ (Or.inl rfl) (by decide) ?_
        | refine Guarded.lit_cons _ _ _ (Or.inr (by decide)) (by decide) ?_
        | refine Guarded.hole_cons _ _ _
            (hfree _ (by simp [placeholderToks]) _ (by simp)) (by decide) ?_)]
    rw [strReplaceL_pieces "renameme".data (lowerL modP) (by decide) _ (by
      repeat
        first
        | exact Guarded.nil
        | exact Guarded.last_lit _ (Or.inl rfl)
        | exact Guarded.last_lit _ (Or.inr (by decide))
        | exact Guarded.last_hole _ (hfree _ (by simp [placeholderToks]) _ (by simp))
        | refine Guarded.sep_cons _ _ (by decide) ?_
        | refine Guarded.lit_cons _ _ _ (Or.inl rfl) (by decide) ?_
        | refine Guarded.lit_cons _ _ _ (Or.inr (by decide)) (by decide) ?_
        | refine Guarded.hole_cons _ _ _
            (hfree _ (by simp [placeholderToks]) _ (by simp)) (by decide) ?_)]
    rfl
  · intro t ht
    simp only [placeholderToks, List.mem_cons, List.not_mem_nil, or_false] at ht
    rcases ht with rfl | rfl | rfl | rfl | rfl <;>
    · refine containsTok_pieces _ (by decide) _ ?_ ?_
      · repeat
          first
          | exact Guarded.nil
          | exact Guarded.last_lit _ (Or.inl rfl)
          | exact Guarded.last_lit _ (Or.inr (by decide))
          | exact Guarded.last_hole _ (hfree _ (by simp [placeholderToks]) _ (by simp))
          | refine Guarded.sep_cons _ _ (by decide) ?_
          | refine Guarded.lit_cons _ _ _ (Or.inl rfl) (by decide) ?_
          | refine Guarded.lit_cons _ _ _ (Or.inr (by decide)) (by decide) ?_
          | refine Guarded.hole_cons _ _ _
              (hfree _ (by simp [placeholderToks]) _ (by simp)) (by decide) ?_
      · intro s hs
        simp only [infoFinalPieces, List.mem_cons, List.not_mem_nil, or_false,
          Piece.lit.injEq, reduceCtorEq, false_or, or_false] at hs
        rcases hs with rfl | rfl <;> decide
  · exact containsTok_pieces_hole (lowerL modP) _ (by simp [infoFinalPieces])
  · exact containsTok_pieces_hole (lowerL pkgD) _ (by simp [infoFinalPieces])

/-! ### Claim C1 — assembly -/

/-- No placeholder token occurs in the text. -/
def placeholderFree (s : String) : Bool :=
  placeholderToks.all (fun t => !(containsTokS t s))

/-- The case forms of the two names that the substitution inserts. -/
def nameCaseForms (package module : String) : List String :=
  [module, upperS module, lowerS module, upperS package, lowerS package]

/-- The amendment's side condition: no placeholder token occurs as a
substring of any case form of the module or package name. -/
def tokensAvoidNames (package module : String) : Bool :=
  placeholderToks.all (fun t =>
    (nameCaseForms package module).all (fun f => !(containsTokS t f)))

/-- The four files (destination path and substituted content) the module
loop writes for one module, derived from `moduleDest`, `templateText` and
`substituteModule` as in `writeOneModuleFile`. -/
def moduleFiles (package module : String) : List (String × String) :=
  moduleSrcFilenames.map (fun f =>
    (moduleDest package module f, substituteModule package module (templateText f)))

theorem substituteModule_data (package module t : String) :
    (substituteModule package module t).data =
      strReplaceL "renameme".data (lowerL module.data)
        (strReplaceL "package".data (lowerL package.data)
          (strReplaceL "RENAMEME".data (upperL module.data)
            (strReplaceL "PACKAGE".data (upperL package.data)
              (strReplaceL "RenameMe".data module.data t.data)))) := rfl

theorem tokensAvoidNames_spec (package module : String)
    (h : tokensAvoidNames package module = true) :
    ∀ t ∈ placeholderToks,
      ∀ f ∈ [module.data, upperL package.data, upperL module.data,
        lowerL package.data, lowerL module.data], containsTok t.data f = false := by
  intro t ht f hf
  rw [tokensAvoidNames, List.all_eq_true] at h
  have h2 := h t ht
  rw [List.all_eq_true] at h2
  have key : ∀ g ∈ nameCaseForms package module, containsTokS t g = false := by
    intro g hg
    have h3 := h2 g hg
    simpa using h3
  simp only [List.mem_cons, List.not_mem_nil, or_false] at hf
  rcases hf with rfl | rfl | rfl | rfl | rfl
  · exact key module (by simp [nameCaseForms])
  · exact key (upperS package) (by simp [nameCaseForms])
  · exact key (upperS module) (by simp [nameCaseForms])
  · exact key (lowerS package) (by simp [nameCaseForms])
  · exact key (lowerS module) (by simp [nameCaseForms])

theorem string_ne_of_data_ne {a b : String} (h : a.data ≠ b.data) : a ≠ b :=
  fun he => h (congrArg String.data he)

/-- The conclusion of the amended claim C1 for one package/module pair:
the module loop writes exactly one header, one implementation and two
schema files (four pairwise distinct destination paths of the stated
shapes); none of the four generated contents contains any of the five
placeholder tokens; and each content contains the case forms its template
provides (header: module verbatim, module upper-cased, package
upper-cased, package lower-cased; implementation: module verbatim, package
lower-cased; both schema files: module lower-cased, package lower-cased). -/
def C1Conclusion (package module : String) : Prop :=
  (moduleFiles package module).map Prod.fst =
    ["plugins/" ++ module ++ ".hpp", "plugins/" ++ module ++ ".cpp",
     "schema/" ++ package ++ "/" ++ lowerS module ++ ".jsonnet",
     "schema/" ++ package ++ "/" ++ lowerS module ++ "info.jsonnet"] ∧
  (["plugins/" ++ module ++ ".hpp", "plugins/" ++ module ++ ".cpp",
    "schema/" ++ package ++ "/" ++ lowerS module ++ ".jsonnet",
    "schema/" ++ package ++ "/" ++ lowerS module ++ "info.jsonnet"] : List String).Nodup ∧
  placeholderFree (substituteModule package module RenameMeHpp) = true ∧
  placeholderFree (substituteModule package module RenameMeCpp) = true ∧
  placeholderFree (substituteModule package module renamemeJsonnet) = true ∧
  placeholderFree (substituteModule package module renamemeinfoJsonnet) = true ∧
  containsTokS module (substituteModule package module RenameMeHpp) = true ∧
  containsTokS (upperS module) (substituteModule package module RenameMeHpp) = true ∧
  containsTokS (upperS package) (substituteModule package module RenameMeHpp) = true ∧
  containsTokS (lowerS package) (substituteModule package module RenameMeHpp) = true ∧
  containsTokS module (substituteModule package module RenameMeCpp) = true ∧
  containsTokS (lowerS package) (substituteModule package module RenameMeCpp) = true ∧
  containsTokS (lowerS module) (substituteModule package module renamemeJsonnet) = true ∧
  containsTokS (lowerS package) (substituteModule package module renamemeJsonnet) = true ∧
  containsTokS (lowerS module) (substituteModule package module renamemeinfoJsonnet) = true ∧
  containsTokS (lowerS package) (substituteModule package module renamemeinfoJsonnet) = true

/-- Claim C1 (amended): for every module name accepted by the check and
every package name such that no placeholder token occurs in any case form
of either name, generating the module produces exactly one header, one
implementation and two schema files, whose contents contain no placeholder
token and contain the supplied names in each case form the corresponding
template provides. -/
theorem c1_module_generation (package module : String)
    (hmod : re_search_pascal module = true)
    (hguard : tokensAvoidNames package module = true) :
    C1Conclusion package module := by
  have hfree5 := tokensAvoidNames_spec package module hguard
  have hfree4 : ∀ t ∈ placeholderToks,
      ∀ f ∈ [module.data, upperL package.data, upperL module.data,
        lowerL package.data], containsTok t.data f = false := by
    intro t ht f hf
    refine hfree5 t ht f ?_
    simp only [List.mem_cons, List.not_mem_nil, or_false] at hf ⊢
    tauto
  have hhpp := hpp_file_ok package.data module.data hfree4
  have hcpp := cpp_file_ok package.data module.data hfree5
  have hjs := jsonnet_file_ok package.data module.data hfree5
  have hinfo := info_file_ok package.data module.data hfree5
  have chpp : (substituteModule package module RenameMeHpp).data =
      piecesText (hppFinalPieces package.data module.data) := by
    rw [substituteModule_data]
    exact hhpp.1
  have ccpp : (substituteModule package module RenameMeCpp).data =
      piecesText (cppFinalPieces package.data module.data) := by
    rw [substituteModule_data]
    exact hcpp.1
  have cjs : (substituteModule package module renamemeJsonnet).data =
      piecesText (jsonnetFinalPieces package.data module.data) := by
    rw [substituteModule_data]
    exact hjs.1
  have cinfo : (substituteModule package module renamemeinfoJsonnet).data =
      piecesText (infoFinalPieces package.data module.data) := by
    rw [substituteModule_data]
    exact hinfo.1
  have p1 : moduleDest package module "RenameMe.hpp" =
      "plugins/" ++ module ++ ".hpp" := rfl
  have p2 : moduleDest package module "RenameMe.cpp" =
      "plugins/" ++ module ++ ".cpp" := rfl
  have p3 : moduleDest package module "renameme.jsonnet" =
      "schema/" ++ package ++ "/" ++ lowerS module ++ ".jsonnet" := by
    have e1 : moduleDest package module "renameme.jsonnet" = "schema/" ++ package ++
        "/" ++ strReplace "renameme" (lowerS module) "renameme.jsonnet" := rfl
    have e2 : strReplace "renameme" (lowerS module) "renameme.jsonnet" =
        lowerS module ++ ".jsonnet" := rfl
    rw [e1, e2, ← String.append_assoc]
  have p4 : moduleDest package module "renamemeinfo.jsonnet" =
      "schema/" ++ package ++ "/" ++ lowerS module ++ "info.jsonnet" := by
    have e1 : moduleDest package module "renamemeinfo.jsonnet" = "schema/" ++ package ++
        "/" ++ strReplace "renameme" (lowerS module) "renamemeinfo.jsonnet" := rfl
    have e2 : strReplace "renameme" (lowerS module) "renamemeinfo.jsonnet" =
        lowerS module ++ "info.jsonnet" := rfl
    rw [e1, e2, ← String.append_assoc]
  refine ⟨?_, ?_, ?_, ?_, ?_, ?_, ?_, ?_, ?_, ?_, ?_, ?_, ?_, ?_, ?_, ?_⟩
  · simp only [moduleFiles, moduleSrcFilenames, List.map_cons, List.map_nil]
    rw [p1, p2, p3, p4]
  · simp only [List.nodup_cons, List.mem_cons, List.not_mem_nil, or_false,
      List.nodup_nil, and_true, not_or, not_false_eq_true]
    refine ⟨⟨?_, ?_, ?_⟩, ⟨?_, ?_⟩, ?_⟩
    · intro h
      have h2 : ("plugins/" ++ module).data ++ ".hpp".data =
          ("plugins/" ++ module).data ++ ".cpp".data := congrArg String.data h
      exact absurd (List.append_cancel_left h2) (by decide)
    · intro h
      have h2 : (some 'p' : Option Char) = some 's' :=
        congrArg (fun s => s.data.head?) h
      exact absurd h2 (by decide)
    · intro h
      have h2 : (some 'p' : Option Char) = some 's' :=
        congrArg (fun s => s.data.head?) h
      exact absurd h2 (by decide)
    · intro h
      have h2 : (some 'p' : Option Char) = some 's' :=
        congrArg (fun s => s.data.head?) h
      exact absurd h2 (by decide)
    · intro h
      have h2 : (some 'p' : Option Char) = some 's' :=
        congrArg (fun s => s.data.head?) h
      exact absurd h2 (by decide)
    · intro h
      have h2 : ("schema/" ++ package ++ "/" ++ lowerS module).data ++ ".jsonnet".data =
          ("schema/" ++ package ++ "/" ++ lowerS module).data ++ "info.jsonnet".data :=
        congrArg String.data h
      exact absurd (List.append_cancel_left h2) (by decide)
  · rw [placeholderFree, List.all_eq_true]
    intro t ht
    have hf := hhpp.2.1 t ht
    show (!containsTok t.data ((substituteModule package module RenameMeHpp).data)) = true
    rw [chpp, hf]
    rfl
  · rw [placeholderFree, List.all_eq_true]
    intro t ht
    have hf := hcpp.2.1 t ht
    show (!containsTok t.data ((substituteModule package module RenameMeCpp).data)) = true
    rw [ccpp, hf]
    rfl
  · rw [placeholderFree, List.all_eq_true]
    intro t ht
    have hf := hjs.2.1 t ht
    show (!containsTok t.data ((substituteModule package module renamemeJsonnet).data)) = true
    rw [cjs, hf]
    rfl
  · rw [placeholderFree, List.all_eq_true]
    intro t ht
    have hf := hinfo.2.1 t ht
    show (!containsTok t.data ((substituteModule package module renamemeinfoJsonnet).data)) = true
    rw [cinfo, hf]
    rfl
  · show containsTok module.data ((substituteModule package module RenameMeHpp).data) = true
    rw [chpp]
    exact hhpp.2.2.1
  · show containsTok (upperL module.data)
      ((substituteModule package module RenameMeHpp).data) = true
    rw [chpp]
    exact hhpp.2.2.2.1
  · show containsTok (upperL package.data)
      ((substituteModule package module RenameMeHpp).data) = true
    rw [chpp]
    exact hhpp.2.2.2.2.1
  · show containsTok (lowerL package.data)
      ((substituteModule package module RenameMeHpp).data) = true
    rw [chpp]
    exact hhpp.2.2.2.2.2
  · show containsTok module.data ((substituteModule package module RenameMeCpp).data) = true
    rw [ccpp]
    exact hcpp.2.2.1
  · show containsTok (lowerL package.data)
      ((substituteModule package module RenameMeCpp).data) = true
    rw [ccpp]
    exact hcpp.2.2.2
  · show containsTok (lowerL module.data)
      ((substituteModule package module renamemeJsonnet).data) = true
    rw [cjs]
    exact hjs.2.2.1
  · show containsTok (lowerL package.data)
      ((substituteModule package module renamemeJsonnet).data) = true
    rw [cjs]
    exact hjs.2.2.2
  · show containsTok (lowerL module.data)
      ((substituteModule package module renamemeinfoJsonnet).data) = true
    rw [cinfo]
    exact hinfo.2.2.1
  · show containsTok (lowerL package.data)
      ((substituteModule package module renamemeinfoJsonnet).data) = true
    rw [cinfo]
    exact hinfo.2.2.2

/-- Claim C1 counterexample: the module name `Renameme` passes the
PascalCase check, yet its lower-cased form is the placeholder token
`renameme` itself, so step 5 rewrites the schema template's token to the
same text and the generated schema file still contains the placeholder
token `renameme` — the claim's "zero occurrences of the original
placeholder tokens" fails for this accepted module name. -/
theorem c1_counterexample :
    re_search_pascal "Renameme" = true ∧
    containsTokS "renameme" (substituteModule "pkg" "Renameme" renamemeJsonnet) = true := by
  refine ⟨by decide, by decide⟩

theorem c1_module_generation_witness :
    re_search_pascal "MyMod" = true ∧
    tokensAvoidNames "mypkg" "MyMod" = true ∧
    C1Conclusion "mypkg" "MyMod" :=
  ⟨by decide, by decide, c1_module_generation "mypkg" "MyMod" (by decide) (by decide)⟩
